import Mathlib

/-!
# Verification of the interview-ai orchestration core

Shallow embedding of the backend's orchestration core
(`src/backend/app`): the response parser (`core/utils.py`), the
generation gateway (`core/llm.py`), the turn agents (`agents/*.py`),
the setup and process-one-answer pipelines (`agents/graph.py`) and the
session service (`services/interview.py`).

Modelling conventions:
* Python `str` values are embedded as `List Char` where character-level
  processing matters (the parser, keyword matching), and as `String`
  inside the session state.
* Python numbers in the scoring logic are embedded as exact rationals.
  Because the batteries `Rat` field operations are `@[irreducible]`,
  the embedding uses its own kernel-reducible wrappers (`qadd`, `qmul`,
  ...) built on `mkRat`.  The decimal rounding `round(x, 1)` is
  embedded as round-half-to-even on tenths (`roundTenth`), which agrees
  with CPython's `round` on every value reachable from the integer turn
  scores of this code base.
* LLM calls are embedded as oracle parameters: each agent receives the
  already-parsed outcome its `invoke_llm` + `extract_json` +
  pydantic-validation call chain would have produced (`Option α`, with
  `none` for a gateway or parse failure), so one run of a pipeline is a
  pure function of the state and the oracle values.
* Side effects on the durable store and the Redis cache are reified as
  an explicit list of `Effect` values returned next to the new state.
* Statuses are the exact strings the Python code compares against.
-/

namespace InterviewAI

/-! ## Kernel-reducible rational arithmetic -/

/-- Addition on `ℚ` via `mkRat` (kernel-reducible). -/
def qadd (a b : ℚ) : ℚ := mkRat (a.num * b.den + b.num * a.den) (a.den * b.den)

/-- Subtraction on `ℚ` via `mkRat` (kernel-reducible). -/
def qsub (a b : ℚ) : ℚ := mkRat (a.num * b.den - b.num * a.den) (a.den * b.den)

/-- Multiplication on `ℚ` via `mkRat` (kernel-reducible). -/
def qmul (a b : ℚ) : ℚ := mkRat (a.num * b.num) (a.den * b.den)

/-- Division on `ℚ` via `mkRat` (kernel-reducible). -/
def qdiv (a b : ℚ) : ℚ :=
  if b.num < 0 then mkRat (-(a.num * b.den)) (a.den * b.num.natAbs)
  else mkRat (a.num * b.den) (a.den * b.num.natAbs)

/-- Negation on `ℚ` via `mkRat` (kernel-reducible). -/
def qneg (a : ℚ) : ℚ := mkRat (-a.num) a.den

/-- Natural power on `ℚ` (kernel-reducible). -/
def qpow (q : ℚ) : Nat → ℚ
  | 0 => 1
  | n + 1 => qmul q (qpow q n)

/-- Integer power on `ℚ` (kernel-reducible). -/
def qzpow (q : ℚ) (e : Int) : ℚ :=
  if e < 0 then qdiv 1 (qpow q e.natAbs) else qpow q e.toNat

/-- Absolute value on `ℚ` (kernel-reducible). -/
def qabs (a : ℚ) : ℚ := if a.num < 0 then mkRat (-a.num) a.den else a

/-- Boolean strict order on `ℚ` by cross-multiplication. -/
def qltb (a b : ℚ) : Bool := decide (a.num * b.den < b.num * a.den)

/-- Boolean order on `ℚ` by cross-multiplication. -/
def qleb (a b : ℚ) : Bool := decide (a.num * b.den ≤ b.num * a.den)

/-- Floor on `ℚ` (kernel-reducible). -/
def qfloor (a : ℚ) : Int := Int.fdiv a.num a.den

/-- Round to the nearest integer, ties to even: CPython's `round`. -/
def roundHalfEven (q : ℚ) : Int :=
  let f := qfloor q
  let delta := q.num - f * (q.den : Int)
  if 2 * delta < (q.den : Int) then f
  else if (q.den : Int) < 2 * delta then f + 1
  else if f % 2 = 0 then f else f + 1

/-- CPython's `round(q, 1)` on the exact rational value. -/
def roundTenth (q : ℚ) : ℚ := mkRat (roundHalfEven (qmul q 10)) 10

/-! ## Character-level text utilities (`core/utils.py`) -/

/-- The whitespace class of Python's `str.strip` and `re` `\s`,
restricted to the code points this code base can see. -/
def isPySpace (c : Char) : Bool :=
  c = ' ' || c = '\t' || c = '\n' || c = '\r' || c = Char.ofNat 0x0b ||
  c = Char.ofNat 0x0c || c = Char.ofNat 0x1c || c = Char.ofNat 0x1d ||
  c = Char.ofNat 0x1e || c = Char.ofNat 0x1f || c = Char.ofNat 0x85 ||
  c = Char.ofNat 0xa0

/-- The opening-brace character (written numerically so that no brace
appears outside comments). -/
def lbrace : Char := Char.ofNat 123

/-- The closing-brace character. -/
def rbrace : Char := Char.ofNat 125

/-- The backtick character. -/
def btick : Char := Char.ofNat 0x60

/-- `pre.isPrefixOf l` as a named function. -/
def startsWithList (pre l : List Char) : Bool := pre.isPrefixOf l

/-- Does `pat` occur as a contiguous run anywhere in the text? This is
Python's `pat in text`. -/
def containsSub (pat : List Char) : List Char → Bool
  | [] => pat.isEmpty
  | c :: rest => startsWithList pat (c :: rest) || containsSub pat rest

/-- Strip matching characters from both ends (Python `str.strip`). -/
def stripEnds (p : Char → Bool) (l : List Char) : List Char :=
  ((l.dropWhile p).reverse.dropWhile p).reverse

/-- The replacement table of `normalize_unicode`, in source order. -/
def nReplacements : List (Char × Char) :=
  [(Char.ofNat 0x2011, '-'), (Char.ofNat 0x2010, '-'),
   (Char.ofNat 0x2012, '-'), (Char.ofNat 0x2013, '-'),
   (Char.ofNat 0x2014, '-'), (Char.ofNat 0x201c, '"'),
   (Char.ofNat 0x201d, '"'), (Char.ofNat 0x2018, '\''),
   (Char.ofNat 0x2019, '\''), (Char.ofNat 0x00a0, ' ')]

/-- One `text.replace(old, new)` step; both sides are single characters
in `normalize_unicode`, so the replace is a character map. -/
def replaceChar (p : Char × Char) (s : List Char) : List Char :=
  s.map (fun c => if c = p.1 then p.2 else c)

/-- `normalize_unicode` from `core/utils.py`: the replacement table is
applied sequentially to the whole text. -/
def normalize_unicode (s : List Char) : List Char :=
  nReplacements.foldl (fun acc p => replaceChar p acc) s

/-- The pointwise character function computed by `normalize_unicode`. -/
def normChar (c : Char) : Char :=
  nReplacements.foldl (fun a p => if a = p.1 then p.2 else a) c

/-! ## JSON values and `json.loads` (used by `extract_json`) -/

/-- A parsed JSON value. Numbers are kept as exact rationals (CPython
produces floats for non-integral numbers; the claims under study only
involve exactly-representable values). `nan` and `inf` mirror
CPython's non-standard `NaN` / `Infinity` literals. -/
inductive Json where
  | null
  | bool (b : Bool)
  | num (q : ℚ)
  | nan
  | inf (neg : Bool)
  | str (s : List Char)
  | arr (elems : List Json)
  | obj (members : List (List Char × Json))

/-- JSON inter-token whitespace (`json.decoder.WHITESPACE`). -/
def isJsonWs (c : Char) : Bool := c = ' ' || c = '\t' || c = '\n' || c = '\r'

/-- Drop JSON whitespace. -/
def skipJsonWs (l : List Char) : List Char := l.dropWhile isJsonWs

/-- Hexadecimal digit value. -/
def hexVal (c : Char) : Option Nat :=
  if '0' ≤ c ∧ c ≤ '9' then some (c.toNat - 48)
  else if 'a' ≤ c ∧ c ≤ 'f' then some (c.toNat - 87)
  else if 'A' ≤ c ∧ c ≤ 'F' then some (c.toNat - 55)
  else none

/-- Four hexadecimal digits (`\uXXXX`). -/
def hex4 (a b c d : Char) : Option Nat := do
  let x1 ← hexVal a
  let x2 ← hexVal b
  let x3 ← hexVal c
  let x4 ← hexVal d
  return ((x1 * 16 + x2) * 16 + x3) * 16 + x4

/-- Single-character JSON escapes (`json.decoder.BACKSLASH`). -/
def escChar (e : Char) : Option Char :=
  if e = '"' then some '"'
  else if e = '\\' then some '\\'
  else if e = '/' then some '/'
  else if e = 'b' then some (Char.ofNat 8)
  else if e = 'f' then some (Char.ofNat 12)
  else if e = 'n' then some '\n'
  else if e = 'r' then some '\r'
  else if e = 't' then some '\t'
  else none

/-- One decoded unit of a JSON string: a literal character or the code
point of a `\uXXXX` escape (kept numeric so surrogate pairs can be
combined in a second pass, as `json.decoder.py_scanstring` does). -/
inductive StrUnit where
  | raw (c : Char)
  | esc (n : Nat)

/-- First pass of `py_scanstring` (strict mode): read the string body up
to the closing quote, rejecting unescaped control characters and bad
escapes, decoding `\uXXXX` escapes to numeric units. -/
def parseStrRaw : List Char → Option (List StrUnit × List Char)
  | [] => none
  | c :: rest =>
    if c = '"' then some ([], rest)
    else if c = '\\' then
      match rest with
      | [] => none
      | e :: rest2 =>
        if e = 'u' then
          match rest2 with
          | a :: b :: c3 :: d :: rest3 =>
            match hex4 a b c3 d with
            | none => none
            | some hv => (parseStrRaw rest3).map (fun p => (StrUnit.esc hv :: p.1, p.2))
          | _ => none
        else
          match escChar e with
          | some ec => (parseStrRaw rest2).map (fun p => (StrUnit.raw ec :: p.1, p.2))
          | none => none
    else if c.toNat < 0x20 then none
    else (parseStrRaw rest).map (fun p => (StrUnit.raw c :: p.1, p.2))

mutual

/-- Second pass of `py_scanstring`: adjacent `\uXXXX` escapes forming a
surrogate pair are combined into one code point; any other escape
becomes its own character.  (A lone surrogate yields a Python string
with a surrogate code point, which `Char` cannot represent;
`Char.ofNat` substitutes `'\0'` there.  No claim touches that case.) -/
def combineSurrogates : List StrUnit → List Char
  | [] => []
  | .raw c :: rest => c :: combineSurrogates rest
  | .esc hv :: rest => combineEsc hv rest

/-- Helper for `combineSurrogates`: the pending escape `hv` either pairs
with a following low-surrogate escape or stands alone. -/
def combineEsc (hv : Nat) : List StrUnit → List Char
  | [] => [Char.ofNat hv]
  | .raw c :: rest => Char.ofNat hv :: c :: combineSurrogates rest
  | .esc lo :: rest =>
    if (0xD800 ≤ hv ∧ hv ≤ 0xDBFF) ∧ (0xDC00 ≤ lo ∧ lo ≤ 0xDFFF) then
      Char.ofNat (0x10000 + (hv - 0xD800) * 0x400 + (lo - 0xDC00)) :: combineSurrogates rest
    else Char.ofNat hv :: combineEsc lo rest

end

/-- JSON string body after the opening quote. -/
def parseStringBody (l : List Char) : Option (List Char × List Char) :=
  (parseStrRaw l).map (fun p => (combineSurrogates p.1, p.2))

/-- Numeric value of a run of decimal digits. -/
def natOfDigits (ds : List Char) : Nat :=
  ds.foldl (fun a c => a * 10 + (c.toNat - 48)) 0

/-- The integer part `(-?(?:0|[1-9]\d*))` of the JSON number regex:
value, digit count, rest. A leading `0` is never followed by more
digits. -/
def parsePosInt : List Char → Option (Nat × Nat × List Char)
  | [] => none
  | c :: rest =>
    if c = '0' then some (0, 1, rest)
    else if c.isDigit then
      let ds := (c :: rest).takeWhile Char.isDigit
      some (natOfDigits ds, ds.length, (c :: rest).dropWhile Char.isDigit)
    else none

/-- The optional fraction `(\.\d+)?`: digits value, digit count, rest. -/
def parseFrac (l : List Char) : Nat × Nat × List Char :=
  match l with
  | c :: rest =>
    if c = '.' then
      let ds := rest.takeWhile Char.isDigit
      if ds = [] then (0, 0, l) else (natOfDigits ds, ds.length, rest.dropWhile Char.isDigit)
    else (0, 0, l)
  | [] => (0, 0, l)

/-- The optional exponent `([eE][-+]?\d+)?`. -/
def parseExp (l : List Char) : Int × List Char :=
  match l with
  | e :: rest =>
    if e = 'e' ∨ e = 'E' then
      let p := match rest with
        | s :: r => if s = '+' then (false, r) else if s = '-' then (true, r) else (false, rest)
        | [] => (false, rest)
      let ds := p.2.takeWhile Char.isDigit
      if ds = [] then (0, l)
      else ((if p.1 then -(natOfDigits ds : Int) else (natOfDigits ds : Int)), p.2.dropWhile Char.isDigit)
    else (0, l)
  | [] => (0, l)

/-- The JSON number regex `NUMBER_RE` of `json.scanner`, matched at the
head of the input; yields the exact rational value. -/
def parseNumber (l : List Char) : Option (ℚ × List Char) :=
  let p := match l with
    | c :: r => if c = '-' then (true, r) else (false, l)
    | [] => (false, l)
  match parsePosInt p.2 with
  | none => none
  | some (ip, _, l2) =>
    let f := parseFrac l2
    let e := parseExp f.2.2
    let mag : ℚ := qmul (qadd (mkRat ip 1) (qdiv (mkRat f.1 1) (qpow 10 f.2.1))) (qzpow 10 e.1)
    some ((if p.1 then qneg mag else mag), e.2)

/-- `dict` insertion: replace in place if the key exists, else append
(CPython keeps the first position of a re-assigned key). -/
def objInsert (k : List Char) (v : Json) : List (List Char × Json) → List (List Char × Json)
  | [] => [(k, v)]
  | (k', v') :: rest => if k = k' then (k', v) :: rest else (k', v') :: objInsert k v rest

mutual

/-- `py_make_scanner`'s `_scan_once`: dispatch on the first character.
`fuel` strictly decreases on every recursive call; the top-level caller
supplies more fuel than any input of the given length can consume. -/
def parseValue : Nat → List Char → Option (Json × List Char)
  | 0, _ => none
  | fuel + 1, l =>
    match l with
    | [] => none
    | c :: rest =>
      if c = '"' then (parseStringBody rest).map (fun p => (Json.str p.1, p.2))
      else if c = lbrace then parseMembersStart fuel (skipJsonWs rest)
      else if c = '[' then parseElemsStart fuel (skipJsonWs rest)
      else if startsWithList ['n', 'u', 'l', 'l'] l then some (Json.null, l.drop 4)
      else if startsWithList ['t', 'r', 'u', 'e'] l then some (Json.bool true, l.drop 4)
      else if startsWithList ['f', 'a', 'l', 's', 'e'] l then some (Json.bool false, l.drop 5)
      else
        match parseNumber l with
        | some p => some (Json.num p.1, p.2)
        | none =>
          if startsWithList ['N', 'a', 'N'] l then some (Json.nan, l.drop 3)
          else if startsWithList ['I', 'n', 'f', 'i', 'n', 'i', 't', 'y'] l then some (Json.inf false, l.drop 8)
          else if startsWithList ['-', 'I', 'n', 'f', 'i', 'n', 'i', 't', 'y'] l then some (Json.inf true, l.drop 9)
          else none

/-- Object body after the opening brace (whitespace already skipped). -/
def parseMembersStart : Nat → List Char → Option (Json × List Char)
  | 0, _ => none
  | fuel + 1, l =>
    match l with
    | [] => none
    | c :: _ =>
      if c = rbrace then some (Json.obj [], l.drop 1)
      else parseMembers fuel [] l

/-- Object member loop: `"key" : value` pairs separated by commas. -/
def parseMembers : Nat → List (List Char × Json) → List Char → Option (Json × List Char)
  | 0, _, _ => none
  | fuel + 1, acc, l =>
    match l with
    | [] => none
    | c :: rest =>
      if c = '"' then
        match parseStringBody rest with
        | none => none
        | some (k, r1) =>
          match skipJsonWs r1 with
          | [] => none
          | c2 :: r3 =>
            if c2 = ':' then
              match parseValue fuel (skipJsonWs r3) with
              | none => none
              | some (v, r5) =>
                let acc2 := objInsert k v acc
                match skipJsonWs r5 with
                | [] => none
                | c3 :: r7 =>
                  if c3 = ',' then parseMembers fuel acc2 (skipJsonWs r7)
                  else if c3 = rbrace then some (Json.obj acc2, r7)
                  else none
            else none
      else none

/-- Array body after the opening bracket (whitespace already skipped). -/
def parseElemsStart : Nat → List Char → Option (Json × List Char)
  | 0, _ => none
  | fuel + 1, l =>
    match l with
    | [] => none
    | c :: rest =>
      if c = ']' then some (Json.arr [], rest)
      else parseElems fuel [] l

/-- Array element loop: values separated by commas. -/
def parseElems : Nat → List Json → List Char → Option (Json × List Char)
  | 0, _, _ => none
  | fuel + 1, acc, l =>
    match parseValue fuel l with
    | none => none
    | some (v, r1) =>
      match skipJsonWs r1 with
      | [] => none
      | c :: r2 =>
        if c = ',' then parseElems fuel (acc ++ [v]) (skipJsonWs r2)
        else if c = ']' then some (Json.arr (acc ++ [v]), r2)
        else none

end

/-- `json.loads`: skip leading whitespace, scan one value, require that
only whitespace remains. -/
def jsonParse (s : List Char) : Option Json :=
  let t := skipJsonWs s
  match parseValue (4 * t.length + 16) t with
  | some (v, rest) => if skipJsonWs rest = [] then some v else none
  | none => none

/-! ## `extract_json` (`core/utils.py`) -/

/-- Does the remaining text close the lazy group? The regex suffix
`\n?\s*` matches exactly the all-whitespace strings, so the group can
end here iff after dropping whitespace the text starts with ` ``` `. -/
def closesFence (r : List Char) : Bool :=
  startsWithList [btick, btick, btick] (r.dropWhile isPySpace)

/-- The lazy group `(.*?)` of the fenced-block regex: the shortest
prefix whose remainder matches `\n?\s*` ``` `. -/
def lazyGroup : List Char → Option (List Char)
  | [] => if closesFence [] then some [] else none
  | c :: rest =>
    if closesFence (c :: rest) then some []
    else (lazyGroup rest).map (fun g => c :: g)

/-- Match of ` ```(?:json)?\s*\n?(.*?)\n?\s*``` ` (DOTALL) anchored at
the head of `l`, returning the captured group.  The `(?:json)?` arm is
taken whenever it is present; the greedy `\s*\n?` before the lazy group
consumes exactly the leading whitespace run. -/
def fencedMatchAt (l : List Char) : Option (List Char) :=
  if startsWithList [btick, btick, btick] l then
    let r0 := l.drop 3
    let r1 := if startsWithList ['j', 's', 'o', 'n'] r0 then r0.drop 4 else r0
    lazyGroup (r1.dropWhile isPySpace)
  else none

/-- `re.search` of the fenced-block pattern: leftmost matching start. -/
def fencedSearch : List Char → Option (List Char)
  | [] => none
  | c :: rest =>
    match fencedMatchAt (c :: rest) with
    | some g => some g
    | none => fencedSearch rest

/-- Index of the first occurrence of `c`. -/
def firstIdxOf (c : Char) : List Char → Option Nat
  | [] => none
  | x :: rest =>
    if x = c then some 0 else (firstIdxOf c rest).map (· + 1)

/-- Index of the last occurrence of `c`. -/
def lastIdxOf (c : Char) (l : List Char) : Option Nat :=
  (firstIdxOf c l.reverse).map (fun i => l.length - 1 - i)

/-- `re.search(r"\{.*\}", text, re.DOTALL)`: greedy match from the
first opening brace to the last closing brace after it. -/
def braceExtract (t : List Char) : Option (List Char) :=
  match firstIdxOf lbrace t, lastIdxOf rbrace t with
  | some i, some j => if i < j then some ((t.drop i).take (j - i + 1)) else none
  | _, _ => none

/-- `extract_json` from `core/utils.py`.  The error payload is the
(normalized) text truncated to 200 characters — the excerpt embedded in
the `ValueError` message `"Could not extract valid JSON from LLM
response: {text[:200]}"`. -/
def extract_json (text : List Char) : Except (List Char) Json :=
  let t := normalize_unicode text
  match jsonParse t with
  | some v => .ok v
  | none =>
    match (fencedSearch t).bind jsonParse with
    | some v => .ok v
    | none =>
      match (braceExtract t).bind jsonParse with
      | some v => .ok v
      | none => .error (t.take 200)

/-! ## Generation gateway (`core/llm.py`) -/

/-- The rate-limit keyword list of `invoke_llm`. -/
def rateLimitKeywords : List (List Char) :=
  ["rate limit".data, "429".data, "quota".data, "resource exhausted".data]

/-- `str(e).lower()` (ASCII case folding, as all keywords are ASCII). -/
def lowerChars (s : List Char) : List Char := s.map Char.toLower

/-- The rate-limit test of `invoke_llm`: any keyword occurs in the
lowercased error text. -/
def is_rate_limit (msg : List Char) : Bool :=
  rateLimitKeywords.any (fun k => containsSub k (lowerChars msg))

/-- Observable events of one `invoke_llm` run: primary attempts (with
their 0-based index and outcome), `time.sleep` calls (with duration in
seconds) and the fallback attempt. -/
inductive LlmEvent where
  | primAttempt (i : Nat) (ok : Bool)
  | wait (t : ℚ)
  | fbAttempt (ok : Bool)
deriving DecidableEq

/-- The primary loop `for attempt in range(retry_count + 1)` of
`invoke_llm`.  `primary i` is the outcome of the `i`-th primary
attempt (error payload = lowercased `str(e)`); `remaining` counts the
attempts still allowed after the current one, so `remaining > 0` iff
`attempt < retry_count`.  A rate-limited failure with retries left
sleeps `retry_delay * (attempt + 1)` seconds and continues; any other
failure breaks out of the loop. -/
def primaryLoopAux (primary : Nat → Except (List Char) String) (retry_delay : ℚ) :
    Nat → Nat → Option String × List LlmEvent
  | attempt, 0 =>
    match primary attempt with
    | .ok r => (some r, [.primAttempt attempt true])
    | .error _ => (none, [.primAttempt attempt false])
  | attempt, rem + 1 =>
    match primary attempt with
    | .ok r => (some r, [.primAttempt attempt true])
    | .error e =>
      if is_rate_limit e then
        let rest := primaryLoopAux primary retry_delay (attempt + 1) rem
        (rest.1, .primAttempt attempt false :: .wait (qmul retry_delay (mkRat (attempt + 1) 1)) :: rest.2)
      else (none, [.primAttempt attempt false])

/-- `invoke_llm` from `core/llm.py`: primary with retries, then a single
fallback attempt, then the terminal `RuntimeError`. -/
def invoke_llm (primary : Nat → Except (List Char) String)
    (fallback : Except (List Char) String)
    (retry_count : Nat) (retry_delay : ℚ) :
    Except String String × List LlmEvent :=
  let pl := primaryLoopAux primary retry_delay 0 retry_count
  match pl.1 with
  | some r => (.ok r, pl.2)
  | none =>
    match fallback with
    | .ok r => (.ok r, pl.2 ++ [.fbAttempt true])
    | .error _ => (.error "Both primary and fallback LLMs failed", pl.2 ++ [.fbAttempt false])

/-! ## Data model (`models/schemas.py`, `core/config.py`) -/

/-- `Settings` from `core/config.py` (the fields the core logic reads). -/
structure Settings where
  MAX_QUESTIONS : Nat := 8
  MAX_FOLLOW_UPS : Nat := 1
deriving DecidableEq

/-- The default settings instance. -/
def settings : Settings := {}

/-- `InterviewType` enum. -/
inductive InterviewType where
  | behavioral
  | technical
deriving DecidableEq

/-- `Difficulty` enum. -/
inductive Difficulty where
  | junior
  | mid
  | senior
deriving DecidableEq

/-- `Language` enum. -/
inductive Language where
  | english
  | indonesian
deriving DecidableEq

/-- `OverallGrade` enum. -/
inductive OverallGrade where
  | excellent
  | veryGood
  | good
  | belowAverage
  | poor
deriving DecidableEq

/-- `CandidateProfile` (the resume analyzer's output). `overall_match`
is kept as its enum value string. -/
structure CandidateProfile where
  candidate_name : String := "Unknown"
  skills : List String := []
  experience_years : String := ""
  relevant_experience : List String := []
  strengths : List String := []
  gaps : List String := []
  education : String := ""
  overall_match : String := "moderate"
deriving DecidableEq

/-- `InterviewTopic`. -/
structure InterviewTopic where
  area : String
  focus : String
  why : String
deriving DecidableEq

/-- `InterviewPlan`. -/
structure InterviewPlan where
  topics : List InterviewTopic := []
deriving DecidableEq

/-- `FollowUpDecision`. -/
structure FollowUpDecision where
  needs_follow_up : Bool := false
  reason : String := ""
deriving DecidableEq

/-- `QuestionEvaluation`.  The pydantic model constrains `score` with
`ge=1, le=10` (checked before any field validator runs) and then
applies the `clamp_score` validator. -/
structure QuestionEvaluation where
  score : Int
  strengths : List String := []
  weaknesses : List String := []
  notes : String := ""
deriving DecidableEq

/-- The `clamp_score` field validator of `QuestionEvaluation`. -/
def clamp_score (v : Int) : Int := max 1 (min 10 v)

/-- `QAPair`: one main question's full exchange. -/
structure QAPair where
  question_number : Nat
  question : String
  answer : String
  follow_up_question : Option String := none
  follow_up_answer : Option String := none
  evaluation : Option QuestionEvaluation := none
deriving DecidableEq

/-- `PerQuestionFeedback`. -/
structure PerQuestionFeedback where
  question_number : Nat
  question : String
  candidate_answer : String
  score : Int
  feedback : String
  better_answer : String
deriving DecidableEq

/-- `FinalReport`. -/
structure FinalReport where
  overall_score : ℚ
  overall_grade : OverallGrade
  summary : String
  per_question_feedback : List PerQuestionFeedback := []
  top_strengths : List String := []
  areas_to_improve : List String := []
  action_items : List String := []
  ready_for_role : Bool := false
  ready_explanation : String := ""
deriving DecidableEq

/-- `InterviewState`: the session state threaded through every agent. -/
structure InterviewState where
  resume_text : String := ""
  job_description : String := ""
  interview_type : InterviewType := .behavioral
  difficulty : Difficulty := .junior
  language : Language := .english
  candidate_profile : Option CandidateProfile := none
  interview_plan : Option InterviewPlan := none
  current_question_index : Nat := 0
  current_question : String := ""
  is_follow_up : Bool := false
  follow_up_count : Nat := 0
  qa_pairs : List QAPair := []
  final_report : Option FinalReport := none
  status : String := "initialized"
  error_message : Option String := none
deriving DecidableEq

/-! ## Turn agents (`agents/*.py`)

Each agent takes an extra oracle argument: the parsed-and-validated
outcome of its `invoke_llm` + `extract_json` (+ pydantic) call chain,
with `none` denoting any gateway, parse or validation failure that the
agent's `except` handlers would catch. -/

/-- `content.strip().strip('"').strip("'")` from `generate_question`
and `generate_follow_up`. -/
def stripQuotes (s : String) : String :=
  String.mk (stripEnds (fun c => c = '\'')
    (stripEnds (fun c => c = '"') (stripEnds isPySpace s.data)))

/-- `text.strip()` on a `String`. -/
def stripWsStr (s : String) : String := String.mk (stripEnds isPySpace s.data)

/-- `analyze_resume` from `agents/resume_analyzer.py`.  On success the
candidate name is stripped and truncated to 100 characters; the status
is left at `analyzing` (the graph edge decides what runs next).  On
failure the status becomes `error`. -/
def analyze_resume (o : Option CandidateProfile) (s : InterviewState) : InterviewState :=
  let s := { s with status := "analyzing" }
  match o with
  | some p =>
    let name := stripWsStr p.candidate_name
    let name := if 100 < name.length then name.take 100 else name
    { s with candidate_profile := some { p with candidate_name := name } }
  | none =>
    { s with status := "error", error_message := some "Resume analysis failed" }

/-- `plan_interview` from `agents/interviewer.py`: truncate an
over-long topic list to `MAX_QUESTIONS`; success moves the status to
`interviewing`. -/
def plan_interview (cfg : Settings) (o : Option InterviewPlan) (s : InterviewState) :
    InterviewState :=
  let s := { s with status := "planning" }
  match o with
  | some plan =>
    let topics :=
      if cfg.MAX_QUESTIONS < plan.topics.length then plan.topics.take cfg.MAX_QUESTIONS
      else plan.topics
    { s with interview_plan := some { topics := topics }, status := "interviewing" }
  | none =>
    { s with status := "error", error_message := some "Interview planning failed" }

/-- `generate_question` from `agents/interviewer.py`: requires a
non-empty plan; on success sets the current question (quote-stripped)
and resets the follow-up flag and counter; it does not touch the
status.  On failure the status becomes `error`. -/
def generate_question (o : Option String) (s : InterviewState) : InterviewState :=
  match s.interview_plan with
  | none => { s with status := "error", error_message := some "No interview plan available" }
  | some plan =>
    if plan.topics = [] then
      { s with status := "error", error_message := some "No interview plan available" }
    else
      match o with
      | some content =>
        { s with current_question := stripQuotes content,
                 is_follow_up := false, follow_up_count := 0 }
      | none =>
        { s with status := "error", error_message := some "Question generation failed" }

/-- `decide_follow_up` from `agents/interviewer.py`: once the counter
has reached `MAX_FOLLOW_UPS` the decision is `false` without calling
the model; otherwise it is the model's boolean, and any failure
defaults to `false`.  The status is never modified. -/
def decide_follow_up (cfg : Settings) (o : Option FollowUpDecision) (s : InterviewState) :
    InterviewState :=
  if cfg.MAX_FOLLOW_UPS ≤ s.follow_up_count then { s with is_follow_up := false }
  else
    match o with
    | some d => { s with is_follow_up := d.needs_follow_up }
    | none => { s with is_follow_up := false }

/-- `generate_follow_up` from `agents/interviewer.py`: on success the
follow-up becomes the current question, the flag is set and the counter
incremented; on failure only the flag is cleared. -/
def generate_follow_up (o : Option String) (s : InterviewState) : InterviewState :=
  match o with
  | some content =>
    { s with current_question := stripQuotes content,
             is_follow_up := true, follow_up_count := s.follow_up_count + 1 }
  | none => { s with is_follow_up := false }

/-- The outcome of the evaluator's `extract_json` call: `failure` for a
gateway or parse error, `parsed` for a successfully extracted record
with the given raw field values (before pydantic validation). -/
inductive EvalOutcome where
  | failure
  | parsed (score : Int) (strengths weaknesses : List String) (notes : String)
deriving DecidableEq

/-- Update the last element's evaluation (the Python code mutates
`state.qa_pairs[-1]` in place). -/
def setLastEvaluation (ev : QuestionEvaluation) : List QAPair → List QAPair
  | [] => []
  | [qa] => [{ qa with evaluation := some ev }]
  | qa :: rest => qa :: setLastEvaluation ev rest

/-- `_assign_default_evaluation` from `agents/evaluator.py`. -/
def assign_default_evaluation (s : InterviewState) : InterviewState :=
  if s.qa_pairs = [] then s
  else
    let ev : QuestionEvaluation :=
      { score := 5,
        strengths := ["Evaluation could not be completed automatically"],
        weaknesses := ["Please review this answer manually"],
        notes := "Default evaluation assigned due to processing error" }
    { s with qa_pairs := setLastEvaluation ev s.qa_pairs }

/-- `evaluate_answer` from `agents/evaluator.py`.  Status is set to
`evaluating` at entry.  With no recorded turns the status becomes
`error`.  `QuestionEvaluation(**raw_json)` validates `score` against
`ge=1, le=10` before the `clamp_score` validator runs, so an
out-of-range score raises `ValidationError` (a `ValueError`), which the
handler turns into the default evaluation. -/
def evaluate_answer (o : EvalOutcome) (s : InterviewState) : InterviewState :=
  let s := { s with status := "evaluating" }
  if s.qa_pairs = [] then
    { s with status := "error", error_message := some "No Q&A pairs available for evaluation" }
  else
    match o with
    | .parsed sc st wk nt =>
      if 1 ≤ sc ∧ sc ≤ 10 then
        let ev : QuestionEvaluation :=
          { score := clamp_score sc, strengths := st, weaknesses := wk, notes := nt }
        { s with qa_pairs := setLastEvaluation ev s.qa_pairs }
      else assign_default_evaluation s
    | .failure => assign_default_evaluation s

/-- The turn scores with an evaluation, in order (`[qa.evaluation.score
for qa in state.qa_pairs if qa.evaluation]`). -/
def evalScores (qas : List QAPair) : List Int :=
  qas.filterMap (fun qa => qa.evaluation.map (fun e => e.score))

/-- `round(sum(scores) / len(scores), 1)`. -/
def avgScore (scores : List Int) : ℚ :=
  roundTenth (qdiv (mkRat (scores.foldl (· + ·) 0) 1) (mkRat scores.length 1))

/-- `_assign_default_report` from `agents/coach.py`: the rounded
average of the available turn scores (5.0 if none), the grade band of
that rounded average, boilerplate feedback text, readiness = rounded
average ≥ 6.0, status `completed`. -/
def assign_default_report (s : InterviewState) : InterviewState :=
  let scores := evalScores s.qa_pairs
  let avg : ℚ := if scores = [] then 5 else avgScore scores
  let grade :=
    if qleb 9 avg then OverallGrade.excellent
    else if qleb 7 avg then OverallGrade.veryGood
    else if qleb 5 avg then OverallGrade.good
    else if qleb 3 avg then OverallGrade.belowAverage
    else OverallGrade.poor
  { s with
    final_report := some
      { overall_score := avg,
        overall_grade := grade,
        summary := "Coaching report could not be fully generated. Scores are based on individual evaluations.",
        per_question_feedback := [],
        top_strengths := ["Review individual question evaluations for details"],
        areas_to_improve := ["Review individual question evaluations for details"],
        action_items := ["Review each question and answer manually for improvement areas"],
        ready_for_role := qleb 6 avg,
        ready_explanation := "Assessment based on average score from individual evaluations." },
    status := "completed" }

/-- `generate_coaching_report` from `agents/coach.py`.  Status moves to
`coaching`; with no recorded turns the status becomes `error`.  On a
parsed report, if the reported overall score deviates from the rounded
average of the turn scores by more than 1.0 it is replaced by that
rounded average; then the report is accepted and the status becomes
`completed`.  On any failure the default report is assigned. -/
def generate_coaching_report (o : Option FinalReport) (s : InterviewState) : InterviewState :=
  let s := { s with status := "coaching" }
  if s.qa_pairs = [] then
    { s with status := "error", error_message := some "No interview data available for coaching" }
  else
    match o with
    | some fr =>
      let scores := evalScores s.qa_pairs
      let fr2 :=
        if scores = [] then fr
        else
          let actual_avg := avgScore scores
          if qltb 1 (qabs (qsub fr.overall_score actual_avg)) then
            { fr with overall_score := actual_avg }
          else fr
      { s with final_report := some fr2, status := "completed" }
    | none => assign_default_report s

/-! ## Pipelines (`agents/graph.py`) -/

/-- Oracle values for one run of the process-answer pipeline (each
agent is called at most once per run). -/
structure Oracles where
  followUpD : Option FollowUpDecision := none
  followUpQ : Option String := none
  evalO : EvalOutcome := .failure
  questionO : Option String := none
  coachO : Option FinalReport := none

/-- The three routes out of `check_interview_complete`. -/
inductive Route where
  | err
  | done
  | more
deriving DecidableEq

/-- `check_interview_complete` from `agents/graph.py`: `error` status
short-circuits; an index at or past `MAX_QUESTIONS - 1` routes to
coaching; otherwise to the next question.  (`MAX_QUESTIONS - 1` is
Python int arithmetic; for `MAX_QUESTIONS = 0` both the truncated Nat
subtraction and the Python comparison `index >= -1` route `done` for
every index, so Nat subtraction is faithful here.) -/
def check_interview_complete (cfg : Settings) (s : InterviewState) : Route :=
  if s.status = "error" then .err
  else if cfg.MAX_QUESTIONS - 1 ≤ s.current_question_index then .done
  else .more

/-- `advance_question` from `agents/interviewer.py`. -/
def advance_question (s : InterviewState) : InterviewState :=
  { s with current_question_index := s.current_question_index + 1,
           is_follow_up := false, follow_up_count := 0 }

/-- The process-answer graph (`build_process_answer_graph` +
`run_process_answer`): evaluate, then route to the coaching node, the
advance-and-generate node, or stop on error. -/
def run_process_answer (cfg : Settings) (o : Oracles) (s : InterviewState) : InterviewState :=
  let s1 := evaluate_answer o.evalO s
  match check_interview_complete cfg s1 with
  | .err => s1
  | .done => generate_coaching_report o.coachO s1
  | .more => generate_question o.questionO (advance_question s1)

/-- Oracle values for one run of the setup pipeline. -/
structure SetupOracles where
  profileO : Option CandidateProfile := none
  planO : Option InterviewPlan := none
  questionO : Option String := none

/-- The setup graph (`build_setup_graph` + `run_setup`): analyze,
plan, generate the first question, stopping at the first `error`. -/
def run_setup (cfg : Settings) (o : SetupOracles) (s : InterviewState) : InterviewState :=
  let s1 := analyze_resume o.profileO s
  if s1.status = "error" then s1
  else
    let s2 := plan_interview cfg o.planO s1
    if s2.status = "error" then s2
    else generate_question o.questionO s2

/-! ## Session service (`services/interview.py`) -/

/-- `_sanitize_text`'s newline collapsing `re.sub(r"\n{3,}", "\n\n")`:
`pending` counts the newline run seen so far. -/
def collapseNlAux : Nat → List Char → List Char
  | pending, [] => if 3 ≤ pending then ['\n', '\n'] else List.replicate pending '\n'
  | pending, c :: rest =>
    if c = '\n' then collapseNlAux (pending + 1) rest
    else
      (if 3 ≤ pending then ['\n', '\n'] else List.replicate pending '\n') ++
        c :: collapseNlAux 0 rest

/-- `_sanitize_text`'s space collapsing `re.sub(r" {2,}", " ")`. -/
def collapseSpAux : Nat → List Char → List Char
  | pending, [] => if 2 ≤ pending then [' '] else List.replicate pending ' '
  | pending, c :: rest =>
    if c = ' ' then collapseSpAux (pending + 1) rest
    else
      (if 2 ≤ pending then [' '] else List.replicate pending ' ') ++
        c :: collapseSpAux 0 rest

/-- `_sanitize_text` from `services/interview.py`: strip, collapse
newline runs of three or more to two, collapse space runs of two or
more to one. -/
def sanitize_text (s : String) : String :=
  String.mk (collapseSpAux 0 (collapseNlAux 0 (stripEnds isPySpace s.data)))

/-- An observable side effect of the service layer on the durable store
or the Redis cache. -/
inductive Effect where
  | dbCreate (st : InterviewState)
  | dbSaveQa (qa : QAPair)
  | dbSaveReport (fr : FinalReport)
  | dbFinalScore (fr : FinalReport)
  | dbStatus (status : String) (err : Option String)
  | cacheSet (st : InterviewState) (awaiting : Bool) (pendingQ pendingA : String)
  | cacheClear
deriving DecidableEq

/-- The session dict held in Redis: the state plus the pending
follow-up context. -/
structure SessionData where
  state : InterviewState
  awaiting_follow_up : Bool := false
  pending_main_question : String := ""
  pending_main_answer : String := ""
deriving DecidableEq

/-- `_sync_after_processing`: completed-with-report saves the report
and final score and clears the cache; `error` updates the status and
clears the cache; anything else re-caches and updates the status. -/
def sync_after_processing (s : InterviewState) : List Effect :=
  let otherwise :=
    if s.status = "error" then [Effect.dbStatus s.status s.error_message, Effect.cacheClear]
    else [Effect.cacheSet s false "" "", Effect.dbStatus s.status none]
  if s.status = "completed" then
    match s.final_report with
    | some fr => [.dbSaveReport fr, .dbFinalScore fr, .cacheClear]
    | none => otherwise
  else otherwise

/-- The shared tail of both answer handlers: run the process-answer
graph, normalize a non-terminal status to `interviewing`, save the last
Q&A pair, and sync. -/
def processRecordedAnswer (cfg : Settings) (o : Oracles) (s : InterviewState) :
    InterviewState × List Effect :=
  let s3 := run_process_answer cfg o s
  let s4 :=
    if s3.status ≠ "completed" ∧ s3.status ≠ "error" then { s3 with status := "interviewing" }
    else s3
  let qaEff :=
    match s4.qa_pairs.getLast? with
    | some qa => [Effect.dbSaveQa qa]
    | none => []
  (s4, qaEff ++ sync_after_processing s4)

/-- `_handle_main_answer`: decide a follow-up; either generate it and
cache the pending context, or record the turn and process it. -/
def handle_main_answer (cfg : Settings) (o : Oracles) (sd : SessionData) (answer : String) :
    SessionData × List Effect :=
  let s := decide_follow_up cfg o.followUpD sd.state
  if s.is_follow_up then
    let pendingQ := s.current_question
    let s2 := generate_follow_up o.followUpQ s
    (⟨s2, true, pendingQ, answer⟩, [.cacheSet s2 true pendingQ answer])
  else
    let s2 := { s with qa_pairs := s.qa_pairs ++
        [{ question_number := s.current_question_index + 1,
           question := s.current_question, answer := answer }] }
    let r := processRecordedAnswer cfg o s2
    (⟨r.1, false, "", ""⟩, r.2)

/-- `_handle_follow_up_answer`: record the combined turn from the
pending context and process it. -/
def handle_follow_up_answer (cfg : Settings) (o : Oracles) (sd : SessionData)
    (answer : String) : SessionData × List Effect :=
  let s := sd.state
  let s2 := { s with qa_pairs := s.qa_pairs ++
      [{ question_number := s.current_question_index + 1,
         question := sd.pending_main_question, answer := sd.pending_main_answer,
         follow_up_question := some s.current_question, follow_up_answer := some answer }] }
  let r := processRecordedAnswer cfg o s2
  (⟨r.1, false, "", ""⟩, r.2)

/-- `submit_answer` from `services/interview.py` (after the session has
been loaded): guard terminal statuses, sanitize the answer, reject an
empty answer, then route to the main-answer or follow-up handler. -/
def submit_answer (cfg : Settings) (o : Oracles) (sd : SessionData) (answer : String) :
    Except String (SessionData × List Effect) :=
  if sd.state.status = "completed" then .error "Interview already completed"
  else if sd.state.status = "error" then .error "Interview is in error state"
  else
    let clean := sanitize_text answer
    if clean = "" then .error "Answer cannot be empty"
    else if sd.awaiting_follow_up then .ok (handle_follow_up_answer cfg o sd clean)
    else .ok (handle_main_answer cfg o sd clean)

/-- `_load_session`: a cache hit is used directly; otherwise the state
reconstructed from the durable row is re-cached only while the session
is still active. -/
def load_session (cached : Option SessionData) (dbState : Option InterviewState) :
    Except String (SessionData × List Effect) :=
  match cached with
  | some sd => .ok (sd, [])
  | none =>
    match dbState with
    | none => .error "Session not found"
    | some st =>
      if st.status ≠ "completed" ∧ st.status ≠ "error" then
        .ok (⟨st, false, "", ""⟩, [.cacheSet st false "" ""])
      else .ok (⟨st, false, "", ""⟩, [])

/-- `start_interview`: build the fresh state from the validated config
inputs, run the setup graph, save to the database, cache in Redis —
unconditionally, whatever the status after setup. -/
def start_interview (cfg : Settings) (o : SetupOracles)
    (resume jd : String) (ty : InterviewType) (df : Difficulty) (lang : Language) :
    InterviewState × List Effect :=
  let s0 : InterviewState :=
    { resume_text := resume, job_description := jd,
      interview_type := ty, difficulty := df, language := lang }
  let s := run_setup cfg o s0
  (s, [.dbCreate s, .cacheSet s false "" ""])

/-! ## Derived notions used by the theorems -/

/-- A session that still accepts answers. -/
def activeStatus (s : InterviewState) : Prop :=
  s.status ≠ "completed" ∧ s.status ≠ "error"

/-- The session invariant maintained by the service across requests:
the question index is strictly below the configured maximum, at most
`MAX_QUESTIONS` turns are recorded, and while the session is active the
number of recorded turns equals the question index. -/
def SessionInv (cfg : Settings) (sd : SessionData) : Prop :=
  sd.state.current_question_index < cfg.MAX_QUESTIONS ∧
  sd.state.qa_pairs.length ≤ cfg.MAX_QUESTIONS ∧
  (activeStatus sd.state → sd.state.qa_pairs.length = sd.state.current_question_index)

/-- The score attached to the most recent turn, if any. -/
def lastEvalScore (s : InterviewState) : Option Int :=
  s.qa_pairs.getLast?.bind (fun qa => qa.evaluation.map (fun e => e.score))

/-- Number of primary-attempt events in a gateway trace. -/
def countPrim (tr : List LlmEvent) : Nat :=
  (tr.filter (fun ev => match ev with | .primAttempt _ _ => true | _ => false)).length

/-- Number of fallback-attempt events in a gateway trace. -/
def countFb (tr : List LlmEvent) : Nat :=
  (tr.filter (fun ev => match ev with | .fbAttempt _ => true | _ => false)).length

/-- A one-topic interview plan used by the concrete witness sessions. -/
def planW : InterviewPlan := { topics := [⟨"area", "focus", "why"⟩] }

/-- A Q&A turn with the given question number and evaluation score. -/
def turnWithScore (n : Nat) (sc : Int) : QAPair :=
  { question_number := n, question := "Q", answer := "A",
    evaluation := some { score := sc } }

/-- A live mid-interview session state with the given recorded turns. -/
def liveState (idx : Nat) (qas : List QAPair) : InterviewState :=
  { status := "interviewing", interview_plan := some planW,
    current_question := "Q1", current_question_index := idx, qa_pairs := qas }

/-- A three-turn session whose evaluation scores are `[7, 7, 8]`
(arithmetic mean `22/3`, not representable in one decimal). -/
def s778 : InterviewState :=
  liveState 2 [turnWithScore 1 7, turnWithScore 2 7, turnWithScore 3 8]

/-- A four-turn session whose evaluation scores are `[8, 7, 9, 6]`
(arithmetic mean exactly `7.5`). -/
def s8796 : InterviewState :=
  liveState 3 [turnWithScore 1 8, turnWithScore 2 7, turnWithScore 3 9, turnWithScore 4 6]

/-- A two-turn session whose evaluation scores are `[4, 6]`. -/
def s46 : InterviewState :=
  liveState 1 [turnWithScore 1 4, turnWithScore 2 6]

/-- A one-turn session without an evaluation yet. -/
def oneTurnState : InterviewState :=
  liveState 0 [{ question_number := 1, question := "Q", answer := "A" }]

/-- A model-reported final report with overall score `6.31`. -/
def fr631 : FinalReport :=
  { overall_score := mkRat 631 100, overall_grade := .good, summary := "s" }

/-- A model-reported final report with overall score `9.0`. -/
def fr9 : FinalReport :=
  { overall_score := 9, overall_grade := .excellent, summary := "s" }

/-! ## Theorems -/

theorem foldl_replaceChar_eq_map (ps : List (Char × Char)) (s : List Char) :
    ps.foldl (fun acc p => replaceChar p acc) s
      = s.map (fun c => ps.foldl (fun a p => if a = p.1 then p.2 else a) c) := by
  induction ps generalizing s with
  | nil => simp
  | cons p rest ih =>
    rw [List.foldl_cons, ih (replaceChar p s), replaceChar, List.map_map]
    apply List.map_congr_left
    intro c _
    rfl

theorem normalize_unicode_eq_map (s : List Char) :
    normalize_unicode s = s.map normChar := by
  rw [normalize_unicode, foldl_replaceChar_eq_map]
  rfl

theorem normChar_idem (c : Char) : normChar (normChar c) = normChar c := by
  by_cases h1 : c = Char.ofNat 0x2011
  · subst h1; decide
  by_cases h2 : c = Char.ofNat 0x2010
  · subst h2; decide
  by_cases h3 : c = Char.ofNat 0x2012
  · subst h3; decide
  by_cases h4 : c = Char.ofNat 0x2013
  · subst h4; decide
  by_cases h5 : c = Char.ofNat 0x2014
  · subst h5; decide
  by_cases h6 : c = Char.ofNat 0x201c
  · subst h6; decide
  by_cases h7 : c = Char.ofNat 0x201d
  · subst h7; decide
  by_cases h8 : c = Char.ofNat 0x2018
  · subst h8; decide
  by_cases h9 : c = Char.ofNat 0x2019
  · subst h9; decide
  by_cases h10 : c = Char.ofNat 0x00a0
  · subst h10; decide
  have hc : normChar c = c := by
    simp [normChar, nReplacements, h1, h2, h3, h4, h5, h6, h7, h8, h9, h10]
  rw [hc, hc]

/-- C10: the unicode-punctuation normalization used by the parser is
idempotent — normalizing twice equals normalizing once, for every
string. -/
theorem c10_normalize_unicode_idem (s : List Char) :
    normalize_unicode (normalize_unicode s) = normalize_unicode s := by
  rw [normalize_unicode_eq_map s, normalize_unicode_eq_map (s.map normChar)]
  induction s with
  | nil => rfl
  | cons c cs ih =>
    simp only [List.map_cons, normChar_idem c, ih]

/-- C2: a session whose status is already `completed` or `error`
rejects any answer submission with the corresponding conflict error
before the pipeline runs.  The rejection is a bare `Except.error`: no
successor state and no store or cache effect is produced, so the
session state is not mutated. -/
theorem c2_terminal_submission_rejected (cfg : Settings) (o : Oracles)
    (sd : SessionData) (a : String) :
    (sd.state.status = "completed" →
      submit_answer cfg o sd a = .error "Interview already completed") ∧
    (sd.state.status = "error" →
      submit_answer cfg o sd a = .error "Interview is in error state") := by
  constructor
  · intro h
    simp [submit_answer, h]
  · intro h
    have hne : ¬ sd.state.status = "completed" := by
      rw [h]; decide
    simp [submit_answer, h, hne]

theorem c2_terminal_submission_rejected_witness :
    submit_answer settings {} ⟨{ status := "completed" }, false, "", ""⟩ "hi"
        = .error "Interview already completed" ∧
    submit_answer settings {} ⟨{ status := "error" }, false, "", ""⟩ "hi"
        = .error "Interview is in error state" :=
  ⟨(c2_terminal_submission_rejected settings {} ⟨{ status := "completed" }, false, "", ""⟩ "hi").1 rfl,
   (c2_terminal_submission_rejected settings {} ⟨{ status := "error" }, false, "", ""⟩ "hi").2 rfl⟩

/-- C3: once the per-question follow-up counter has reached
`MAX_FOLLOW_UPS`, the follow-up decision resolves to "no follow-up"
regardless of the model's output; a gateway or parse failure (oracle
`none`) also defaults to "no follow-up"; and the decision step never
modifies the session status (in particular it never sets `error`). -/
theorem c3_follow_up_cap_and_safe_default (cfg : Settings)
    (o : Option FollowUpDecision) (s : InterviewState) :
    (cfg.MAX_FOLLOW_UPS ≤ s.follow_up_count →
      (decide_follow_up cfg o s).is_follow_up = false) ∧
    (decide_follow_up cfg none s).is_follow_up = false ∧
    (decide_follow_up cfg o s).status = s.status := by
  refine ⟨fun h => ?_, ?_, ?_⟩
  · simp [decide_follow_up, h]
  · unfold decide_follow_up
    split <;> simp
  · unfold decide_follow_up
    split
    · rfl
    · cases o <;> rfl

theorem c3_follow_up_cap_and_safe_default_witness :
    settings.MAX_FOLLOW_UPS ≤ (liveState 0 []).follow_up_count + 1 ∧
    (decide_follow_up settings (some { needs_follow_up := true, reason := "r" })
      { liveState 0 [] with follow_up_count := 1 }).is_follow_up = false :=
  ⟨by decide,
   (c3_follow_up_cap_and_safe_default settings
      (some { needs_follow_up := true, reason := "r" })
      { liveState 0 [] with follow_up_count := 1 }).1 (by decide)⟩

/-- C4, counterexample: the code measures the deviation against the
*rounded* mean `round(mean, 1)`, not against the arithmetic mean.  With
turn scores `[7, 7, 8]` (mean `22/3 ≈ 7.333`, rounded `7.3`) and a
reported overall score of `6.31`, the deviation from the arithmetic
mean is `≈ 1.023 > 1.0`, so the claim requires the score to be replaced
by the rounded mean `7.3`; the code computes `|6.31 - 7.3| = 0.99 ≤
1.0` and accepts `6.31` unchanged. -/
theorem c4_score_correction_counterexample :
    ((generate_coaching_report (some fr631) s778).final_report.map FinalReport.overall_score)
      = some (mkRat 631 100) ∧
    qltb 1 (qabs (qsub (mkRat 631 100)
      (qdiv (mkRat ((evalScores s778.qa_pairs).foldl (· + ·) 0) 1)
            (mkRat (evalScores s778.qa_pairs).length 1)))) = true ∧
    mkRat 631 100 ≠
      roundTenth (qdiv (mkRat ((evalScores s778.qa_pairs).foldl (· + ·) 0) 1)
            (mkRat (evalScores s778.qa_pairs).length 1)) :=
  ⟨rfl, by decide, by decide⟩

/-- C4, amended: if the model-reported overall score deviates from the
*rounded-to-one-decimal* mean of the turn scores by more than 1.0, it
is replaced by that rounded mean before acceptance; in particular, for
turn scores `[8, 7, 9, 6]` and a reported overall score of `9.0` the
accepted overall score is exactly `7.5`. -/
theorem c4_score_correction :
    (∀ (s : InterviewState) (fr : FinalReport),
      s.qa_pairs ≠ [] → evalScores s.qa_pairs ≠ [] →
      (qltb 1 (qabs (qsub fr.overall_score (avgScore (evalScores s.qa_pairs)))) = true →
        ((generate_coaching_report (some fr) s).final_report.map FinalReport.overall_score)
          = some (avgScore (evalScores s.qa_pairs))) ∧
      (generate_coaching_report (some fr) s).status = "completed") ∧
    ((generate_coaching_report (some fr9) s8796).final_report.map FinalReport.overall_score)
      = some (mkRat 15 2) := by
  constructor
  · intro s fr h1 h2
    constructor
    · intro hdev
      simp [generate_coaching_report, h1, h2, hdev]
    · simp [generate_coaching_report, h1]
  · rfl

theorem c4_score_correction_witness :
    (s8796.qa_pairs ≠ [] ∧ evalScores s8796.qa_pairs ≠ [] ∧
      qltb 1 (qabs (qsub fr9.overall_score (avgScore (evalScores s8796.qa_pairs)))) = true) ∧
    ((generate_coaching_report (some fr9) s8796).final_report.map FinalReport.overall_score)
      = some (avgScore (evalScores s8796.qa_pairs)) :=
  ⟨⟨by decide, by decide, by decide⟩,
   (c4_score_correction.1 s8796 fr9 (by decide) (by decide)).1 (by decide)⟩

/-- C5, counterexample: the fallback report's overall score is the
*rounded* average `round(mean, 1)`, not the average itself.  With turn
scores `[7, 7, 8]` the average is `22/3 ≈ 7.333`, but the fallback
report carries `7.3`. -/
theorem c5_default_report_counterexample :
    ((generate_coaching_report none s778).final_report.map FinalReport.overall_score)
      = some (mkRat 73 10) ∧
    mkRat 73 10 ≠
      qdiv (mkRat ((evalScores s778.qa_pairs).foldl (· + ·) 0) 1)
           (mkRat (evalScores s778.qa_pairs).length 1) :=
  ⟨rfl, by decide⟩

/-- C5, amended: on coaching failure for a session with at least one
recorded turn, the fallback report always succeeds with status
`completed`; its overall score is the rounded-to-one-decimal average of
the available turn scores (5.0 if no turn has a score), its grade is
the score band of that value (≥9 excellent, ≥7 very good, ≥5 good, ≥3
below average, else poor), and its readiness flag is `score ≥ 6.0`.
For scores `[4, 6]` this gives score 5.0, grade Good, readiness false. -/
theorem c5_default_report :
    (∀ s : InterviewState, s.qa_pairs ≠ [] →
      (generate_coaching_report none s).status = "completed" ∧
      ∃ fr, (generate_coaching_report none s).final_report = some fr ∧
        fr.overall_score =
          (if evalScores s.qa_pairs = [] then (5 : ℚ) else avgScore (evalScores s.qa_pairs)) ∧
        fr.overall_grade =
          (if qleb 9 fr.overall_score then OverallGrade.excellent
           else if qleb 7 fr.overall_score then OverallGrade.veryGood
           else if qleb 5 fr.overall_score then OverallGrade.good
           else if qleb 3 fr.overall_score then OverallGrade.belowAverage
           else OverallGrade.poor) ∧
        fr.ready_for_role = qleb 6 fr.overall_score) ∧
    ((generate_coaching_report none s46).status = "completed" ∧
     (generate_coaching_report none s46).final_report.map FinalReport.overall_score = some 5 ∧
     (generate_coaching_report none s46).final_report.map FinalReport.overall_grade
        = some OverallGrade.good ∧
     (generate_coaching_report none s46).final_report.map FinalReport.ready_for_role
        = some false) := by
  constructor
  · intro s h
    have key : generate_coaching_report none s
        = assign_default_report { s with status := "coaching" } := by
      unfold generate_coaching_report
      rw [if_neg]
      exact h
    rw [key]
    exact ⟨rfl, _, rfl, rfl, rfl, rfl⟩
  · exact ⟨rfl, by decide, by decide, by decide⟩

theorem c5_default_report_witness :
    s46.qa_pairs ≠ [] ∧ (generate_coaching_report none s46).status = "completed" :=
  ⟨by decide, ((c5_default_report.1 s46 (by decide)).1)⟩

/-- C8: evidence for the claim/code divergence on out-of-range scores.
The spec (and the `clamp_score` validator's own docstring) intend a
model-reported score outside `[1, 10]` to be clamped into range, but
pydantic checks the `ge=1, le=10` field constraints *before* any
`mode='after'` field validator, so `QuestionEvaluation(score=15)`
raises `ValidationError` and `evaluate_answer`'s handler assigns the
neutral default evaluation instead: the recorded score is 5, not the
clamped 10.  The status still never becomes `error` on this path, and
the attached score does lie in `[1, 10]`. -/
theorem c8_out_of_range_score_not_clamped :
    lastEvalScore (evaluate_answer (.parsed 15 [] [] "") oneTurnState) = some 5 ∧
    clamp_score 15 = 10 ∧
    (evaluate_answer (.parsed 15 [] [] "") oneTurnState).status = "evaluating" ∧
    lastEvalScore (evaluate_answer (.parsed 8 [] [] "") oneTurnState) = some 8 ∧
    lastEvalScore (evaluate_answer .failure oneTurnState) = some 5 ∧
    (evaluate_answer .failure oneTurnState).status = "evaluating" :=
  ⟨rfl, rfl, rfl, rfl, rfl, rfl⟩

/-- C7, counterexample: an input containing no braces need not raise
`ParseFailure` — the whole-text parse runs first, so the braceless
input `"3"` is parsed directly and returned. -/
theorem c7_extract_json_counterexample :
    extract_json "3".data = .ok (Json.num 3) ∧
    containsSub [lbrace] "3".data = false ∧
    containsSub [rbrace] "3".data = false :=
  ⟨rfl, rfl, rfl⟩

set_option maxRecDepth 4000 in
/-- C7, amended: `extract_json` tries, in order and first success wins:
unicode normalization, whole-text parse, fenced-code-block parse,
greedy first-brace-to-last-brace parse; if all fail it raises
`ParseFailure` carrying an excerpt of at most 200 characters of the
(normalized) text.  A fenced block containing a valid JSON record
surrounded by prose parses to that record, and an input with no braces
and no fenced block that is not itself valid JSON raises
`ParseFailure`. -/
theorem c7_extract_json :
    (∀ t v, jsonParse (normalize_unicode t) = some v → extract_json t = .ok v) ∧
    (∀ t, jsonParse (normalize_unicode t) = none →
      (fencedSearch (normalize_unicode t)).bind jsonParse = none →
      (braceExtract (normalize_unicode t)).bind jsonParse = none →
      extract_json t = .error ((normalize_unicode t).take 200)) ∧
    (∀ t e, extract_json t = .error e → e.length ≤ 200) ∧
    extract_json "Here is the result:\n```json\n\x7b\"score\": 7, \"strengths\": [\"x\"], \"weaknesses\": [], \"notes\": \"ok\"\x7d\n```\nThanks!".data
      = .ok (Json.obj [("score".data, Json.num 7),
          ("strengths".data, Json.arr [Json.str "x".data]),
          ("weaknesses".data, Json.arr []),
          ("notes".data, Json.str "ok".data)]) ∧
    extract_json "The model returned no structured payload.".data
      = .error "The model returned no structured payload.".data := by
  refine ⟨?_, ?_, ?_, rfl, rfl⟩
  · intro t v h
    simp [extract_json, h]
  · intro t h1 h2 h3
    simp [extract_json, h1, h2, h3]
  · intro t e h
    unfold extract_json at h
    dsimp only at h
    split at h
    · exact absurd h (by simp)
    · split at h
      · exact absurd h (by simp)
      · split at h
        · exact absurd h (by simp)
        · injection h with h2
          subst h2
          simp only [List.length_take]
          omega

theorem setLastEvaluation_length (ev : QuestionEvaluation) (l : List QAPair) :
    (setLastEvaluation ev l).length = l.length := by
  induction l with
  | nil => rfl
  | cons qa rest ih =>
    cases rest with
    | nil => rfl
    | cons qb rest2 =>
      simp only [setLastEvaluation, List.length_cons] at ih ⊢
      omega

theorem decide_follow_up_proj (cfg : Settings) (o : Option FollowUpDecision)
    (s : InterviewState) :
    (decide_follow_up cfg o s).status = s.status ∧
    (decide_follow_up cfg o s).qa_pairs = s.qa_pairs ∧
    (decide_follow_up cfg o s).current_question_index = s.current_question_index ∧
    (decide_follow_up cfg o s).current_question = s.current_question := by
  unfold decide_follow_up
  split
  · exact ⟨rfl, rfl, rfl, rfl⟩
  · cases o <;> exact ⟨rfl, rfl, rfl, rfl⟩

theorem generate_follow_up_proj (o : Option String) (s : InterviewState) :
    (generate_follow_up o s).status = s.status ∧
    (generate_follow_up o s).qa_pairs = s.qa_pairs ∧
    (generate_follow_up o s).current_question_index = s.current_question_index := by
  cases o <;> exact ⟨rfl, rfl, rfl⟩

theorem evaluate_answer_nonempty (o : EvalOutcome) (s : InterviewState)
    (h : s.qa_pairs ≠ []) :
    (evaluate_answer o s).status = "evaluating" ∧
    (evaluate_answer o s).qa_pairs.length = s.qa_pairs.length ∧
    (evaluate_answer o s).current_question_index = s.current_question_index ∧
    (evaluate_answer o s).final_report = s.final_report := by
  unfold evaluate_answer assign_default_evaluation
  dsimp only
  rw [if_neg h]
  cases o with
  | failure =>
    dsimp only
    rw [if_neg h]
    exact ⟨rfl, setLastEvaluation_length _ _, rfl, rfl⟩
  | parsed sc st wk nt =>
    dsimp only
    by_cases hr : 1 ≤ sc ∧ sc ≤ 10
    · rw [if_pos hr]
      exact ⟨rfl, setLastEvaluation_length _ _, rfl, rfl⟩
    · rw [if_neg hr, if_neg h]
      exact ⟨rfl, setLastEvaluation_length _ _, rfl, rfl⟩

theorem generate_coaching_report_nonempty (o : Option FinalReport) (s : InterviewState)
    (h : s.qa_pairs ≠ []) :
    (generate_coaching_report o s).status = "completed" ∧
    (∃ fr, (generate_coaching_report o s).final_report = some fr) ∧
    (generate_coaching_report o s).current_question_index = s.current_question_index ∧
    (generate_coaching_report o s).qa_pairs = s.qa_pairs := by
  unfold generate_coaching_report assign_default_report
  dsimp only
  rw [if_neg h]
  cases o with
  | some fr => exact ⟨rfl, ⟨_, rfl⟩, rfl, rfl⟩
  | none => exact ⟨rfl, ⟨_, rfl⟩, rfl, rfl⟩

theorem generate_question_proj (o : Option String) (s : InterviewState) :
    ((generate_question o s).status = s.status ∨ (generate_question o s).status = "error") ∧
    (generate_question o s).qa_pairs = s.qa_pairs ∧
    (generate_question o s).current_question_index = s.current_question_index ∧
    (generate_question o s).final_report = s.final_report := by
  unfold generate_question
  cases s.interview_plan with
  | none => exact ⟨Or.inr rfl, rfl, rfl, rfl⟩
  | some plan =>
    dsimp only
    split
    · exact ⟨Or.inr rfl, rfl, rfl, rfl⟩
    · cases o with
      | some content => exact ⟨Or.inl rfl, rfl, rfl, rfl⟩
      | none => exact ⟨Or.inr rfl, rfl, rfl, rfl⟩

theorem run_process_answer_cases (cfg : Settings) (o : Oracles) (s : InterviewState)
    (h : s.qa_pairs ≠ []) :
    (run_process_answer cfg o s).qa_pairs.length = s.qa_pairs.length ∧
    ((cfg.MAX_QUESTIONS - 1 ≤ s.current_question_index ∧
      (run_process_answer cfg o s).status = "completed" ∧
      (∃ fr, (run_process_answer cfg o s).final_report = some fr) ∧
      (run_process_answer cfg o s).current_question_index = s.current_question_index) ∨
     (s.current_question_index < cfg.MAX_QUESTIONS - 1 ∧
      (run_process_answer cfg o s).current_question_index = s.current_question_index + 1 ∧
      ((run_process_answer cfg o s).status = "evaluating" ∨
       (run_process_answer cfg o s).status = "error") ∧
      (run_process_answer cfg o s).final_report = s.final_report)) := by
  obtain ⟨hst, hlen, hidx, hrep⟩ := evaluate_answer_nonempty o.evalO s h
  have hne : (evaluate_answer o.evalO s).qa_pairs ≠ [] := by
    intro hc
    rw [hc] at hlen
    exact h (List.eq_nil_of_length_eq_zero hlen.symm)
  unfold run_process_answer check_interview_complete
  dsimp only
  rw [hst, hidx]
  have hnerr : ¬ (("evaluating" : String) = "error") := by decide
  by_cases hq : cfg.MAX_QUESTIONS - 1 ≤ s.current_question_index
  · rw [if_neg hnerr, if_pos hq]
    obtain ⟨c1, c2, c3, c4⟩ := generate_coaching_report_nonempty o.coachO _ hne
    refine ⟨by rw [c4, hlen], Or.inl ⟨hq, c1, c2, by rw [c3, hidx]⟩⟩
  · rw [if_neg hnerr, if_neg hq]
    obtain ⟨g1, g2, g3, g4⟩ := generate_question_proj o.questionO (advance_question (evaluate_answer o.evalO s))
    have hadv : (advance_question (evaluate_answer o.evalO s)).status = "evaluating" := hst
    refine ⟨by rw [g2]; exact hlen, Or.inr ⟨by omega, ?_, ?_, ?_⟩⟩
    · rw [g3]
      show (evaluate_answer o.evalO s).current_question_index + 1 = _
      rw [hidx]
    · cases g1 with
      | inl he => exact Or.inl (he.trans hadv)
      | inr he => exact Or.inr he
    · rw [g4]
      exact hrep

theorem processRecordedAnswer_spec (cfg : Settings) (o : Oracles) (s : InterviewState)
    (h : s.qa_pairs ≠ []) :
    ((processRecordedAnswer cfg o s).1.status = "interviewing" ∨
     (processRecordedAnswer cfg o s).1.status = "completed" ∨
     (processRecordedAnswer cfg o s).1.status = "error") ∧
    (processRecordedAnswer cfg o s).1.qa_pairs.length = s.qa_pairs.length ∧
    (((processRecordedAnswer cfg o s).1.status = "completed" ∨
      (processRecordedAnswer cfg o s).1.status = "error") →
      Effect.cacheClear ∈ (processRecordedAnswer cfg o s).2 ∧
      ∀ st aw pq pa, Effect.cacheSet st aw pq pa ∉ (processRecordedAnswer cfg o s).2) ∧
    ((processRecordedAnswer cfg o s).1.current_question_index = s.current_question_index ∨
     (s.current_question_index < cfg.MAX_QUESTIONS - 1 ∧
      (processRecordedAnswer cfg o s).1.current_question_index = s.current_question_index + 1)) ∧
    (activeStatus (processRecordedAnswer cfg o s).1 →
      (processRecordedAnswer cfg o s).1.status = "interviewing" ∧
      s.current_question_index < cfg.MAX_QUESTIONS - 1 ∧
      (processRecordedAnswer cfg o s).1.current_question_index = s.current_question_index + 1) := by
  obtain ⟨hlen, hcases⟩ := run_process_answer_cases cfg o s h
  unfold processRecordedAnswer
  dsimp only
  cases hcases with
  | inl hdone =>
    obtain ⟨hq, hst, ⟨fr, hfr⟩, hidx⟩ := hdone
    have hnorm : ¬ ((run_process_answer cfg o s).status ≠ "completed" ∧
        (run_process_answer cfg o s).status ≠ "error") := by
      rw [hst]; intro hc; exact hc.1 rfl
    rw [if_neg hnorm]
    have hsync : sync_after_processing (run_process_answer cfg o s)
        = [Effect.dbSaveReport fr, Effect.dbFinalScore fr, Effect.cacheClear] := by
      unfold sync_after_processing
      rw [if_pos hst, hfr]
    refine ⟨Or.inr (Or.inl hst), hlen, ?_, Or.inl hidx, ?_⟩
    · intro _
      rw [hsync]
      constructor
      · cases hqa : (run_process_answer cfg o s).qa_pairs.getLast? <;> simp
      · intro st aw pq pa
        cases hqa : (run_process_answer cfg o s).qa_pairs.getLast? <;> simp
    · intro hact
      exact absurd hst hact.1
  | inr hmore =>
    obtain ⟨hq, hidx, hst, hrep⟩ := hmore
    cases hst with
    | inl heval =>
      have hnorm : (run_process_answer cfg o s).status ≠ "completed" ∧
          (run_process_answer cfg o s).status ≠ "error" := by
        rw [heval]; exact ⟨by decide, by decide⟩
      rw [if_pos hnorm]
      refine ⟨Or.inl rfl, hlen, ?_, Or.inr ⟨hq, hidx⟩, fun _ => ⟨rfl, hq, hidx⟩⟩
      intro hterm
      cases hterm with
      | inl hc => exact False.elim ((by decide : ¬ (("interviewing" : String) = "completed")) hc)
      | inr hc => exact False.elim ((by decide : ¬ (("interviewing" : String) = "error")) hc)
    | inr herr =>
      have hnorm : ¬ ((run_process_answer cfg o s).status ≠ "completed" ∧
          (run_process_answer cfg o s).status ≠ "error") := by
        rw [herr]; intro hc; exact hc.2 rfl
      rw [if_neg hnorm]
      have hsync : sync_after_processing (run_process_answer cfg o s)
          = [Effect.dbStatus (run_process_answer cfg o s).status
              (run_process_answer cfg o s).error_message, Effect.cacheClear] := by
        unfold sync_after_processing
        rw [if_neg (by rw [herr]; decide), if_pos herr]
      refine ⟨Or.inr (Or.inr herr), hlen, ?_, Or.inr ⟨hq, hidx⟩, ?_⟩
      · intro _
        rw [hsync]
        constructor
        · cases hqa : (run_process_answer cfg o s).qa_pairs.getLast? <;> simp
        · intro st aw pq pa
          cases hqa : (run_process_answer cfg o s).qa_pairs.getLast? <;> simp
      · intro hact
        exact absurd herr hact.2

theorem handle_follow_up_answer_terminal (cfg : Settings) (o : Oracles)
    (sd : SessionData) (a : String) :
    ((handle_follow_up_answer cfg o sd a).1.state.status = "completed" ∨
     (handle_follow_up_answer cfg o sd a).1.state.status = "error") →
    Effect.cacheClear ∈ (handle_follow_up_answer cfg o sd a).2 ∧
    ∀ st aw pq pa, Effect.cacheSet st aw pq pa ∉ (handle_follow_up_answer cfg o sd a).2 := by
  intro hterm
  unfold handle_follow_up_answer at hterm ⊢
  dsimp only at hterm ⊢
  exact (processRecordedAnswer_spec cfg o _ (by simp)).2.2.1 hterm

theorem handle_main_answer_terminal (cfg : Settings) (o : Oracles)
    (sd : SessionData) (a : String) (hact : activeStatus sd.state) :
    ((handle_main_answer cfg o sd a).1.state.status = "completed" ∨
     (handle_main_answer cfg o sd a).1.state.status = "error") →
    Effect.cacheClear ∈ (handle_main_answer cfg o sd a).2 ∧
    ∀ st aw pq pa, Effect.cacheSet st aw pq pa ∉ (handle_main_answer cfg o sd a).2 := by
  intro hterm
  unfold handle_main_answer at hterm ⊢
  dsimp only at hterm ⊢
  by_cases hf : (decide_follow_up cfg o.followUpD sd.state).is_follow_up = true
  · rw [if_pos hf] at hterm ⊢
    have hst : (generate_follow_up o.followUpQ (decide_follow_up cfg o.followUpD sd.state)).status
        = sd.state.status :=
      (generate_follow_up_proj o.followUpQ _).1.trans (decide_follow_up_proj cfg o.followUpD sd.state).1
    rw [hst] at hterm
    cases hterm with
    | inl hc => exact absurd hc hact.1
    | inr hc => exact absurd hc hact.2
  · rw [if_neg hf] at hterm ⊢
    exact (processRecordedAnswer_spec cfg o _ (by simp)).2.2.1 hterm

/-- C9, counterexample: a session whose setup pipeline ends in `error`
at creation time *is* written to the cache — `start_interview` caches
the state unconditionally after running the setup graph.  With a
failing profile-analysis oracle, the resulting state has status
`error`, yet the effect list contains a `cacheSet` of that state. -/
theorem c9_terminal_cached_counterexample :
    (start_interview settings ⟨none, none, none⟩ "r" "j" .behavioral .junior .english).1.status
      = "error" ∧
    Effect.cacheSet
        (start_interview settings ⟨none, none, none⟩ "r" "j" .behavioral .junior .english).1
        false "" ""
      ∈ (start_interview settings ⟨none, none, none⟩ "r" "j" .behavioral .junior .english).2 :=
  ⟨rfl, by simp [start_interview]⟩

/-- C9, amended: every terminal status (`completed` or `error`)
*reached by the answer-processing pipeline* deletes the session's cache
entry and never (re)writes one in the same request, and a cache-miss
load of a terminal session does not repopulate the cache — but
`start_interview` caches the setup result even when the setup pipeline
ended in `error`, so an error-at-creation session is present in the
cache until its TTL expires. -/
theorem c9_terminal_cache_invalidation :
    (∀ (cfg : Settings) (o : Oracles) (sd : SessionData) (a : String)
        (r : SessionData × List Effect),
      submit_answer cfg o sd a = .ok r →
      (r.1.state.status = "completed" ∨ r.1.state.status = "error") →
      Effect.cacheClear ∈ r.2 ∧ ∀ st aw pq pa, Effect.cacheSet st aw pq pa ∉ r.2) ∧
    (∀ st : InterviewState, (st.status = "completed" ∨ st.status = "error") →
      load_session none (some st) = .ok (⟨st, false, "", ""⟩, [])) := by
  constructor
  · intro cfg o sd a r hsub hterm
    unfold submit_answer at hsub
    split at hsub
    · exact absurd hsub (by simp)
    · rename_i h1
      split at hsub
      · exact absurd hsub (by simp)
      · rename_i h2
        dsimp only at hsub
        split at hsub
        · exact absurd hsub (by simp)
        · split at hsub
          · injection hsub with he
            subst he
            exact handle_follow_up_answer_terminal cfg o sd _ hterm
          · injection hsub with he
            subst he
            exact handle_main_answer_terminal cfg o sd _ ⟨h1, h2⟩ hterm
  · intro st hterm
    unfold load_session
    dsimp only
    rw [if_neg]
    intro hc
    cases hterm with
    | inl h => exact hc.1 h
    | inr h => exact hc.2 h

theorem c9_terminal_cache_invalidation_witness :
    (∃ r, submit_answer settings
        { followUpD := some { needs_follow_up := false }, evalO := .parsed 8 [] [] "",
          coachO := none }
        ⟨{ liveState 7 [turnWithScore 1 8, turnWithScore 2 8, turnWithScore 3 8,
            turnWithScore 4 8, turnWithScore 5 8, turnWithScore 6 8, turnWithScore 7 8] with
            current_question_index := 7 }, false, "", ""⟩ "final answer" = .ok r ∧
      r.1.state.status = "completed" ∧ Effect.cacheClear ∈ r.2) ∧
    load_session none (some { liveState 0 [] with status := "completed" })
      = .ok (⟨{ liveState 0 [] with status := "completed" }, false, "", ""⟩, []) := by
  constructor
  · refine ⟨_, rfl, rfl, ?_⟩
    have := (c9_terminal_cache_invalidation.1 settings
      { followUpD := some { needs_follow_up := false }, evalO := .parsed 8 [] [] "",
        coachO := none }
      ⟨{ liveState 7 [turnWithScore 1 8, turnWithScore 2 8, turnWithScore 3 8,
          turnWithScore 4 8, turnWithScore 5 8, turnWithScore 6 8, turnWithScore 7 8] with
          current_question_index := 7 }, false, "", ""⟩ "final answer" _ rfl (Or.inl rfl)).1
    exact this
  · exact c9_terminal_cache_invalidation.2 _ (Or.inl rfl)

theorem analyze_resume_proj (o : Option CandidateProfile) (s : InterviewState) :
    (analyze_resume o s).current_question_index = s.current_question_index ∧
    (analyze_resume o s).qa_pairs = s.qa_pairs := by
  cases o <;> exact ⟨rfl, rfl⟩

theorem plan_interview_proj (cfg : Settings) (o : Option InterviewPlan) (s : InterviewState) :
    (plan_interview cfg o s).current_question_index = s.current_question_index ∧
    (plan_interview cfg o s).qa_pairs = s.qa_pairs := by
  cases o <;> exact ⟨rfl, rfl⟩

theorem run_setup_proj (cfg : Settings) (o : SetupOracles) (s : InterviewState) :
    (run_setup cfg o s).current_question_index = s.current_question_index ∧
    (run_setup cfg o s).qa_pairs = s.qa_pairs := by
  unfold run_setup
  dsimp only
  split
  · exact analyze_resume_proj o.profileO s
  · split
    · exact ⟨(plan_interview_proj cfg o.planO _).1.trans (analyze_resume_proj o.profileO s).1,
        (plan_interview_proj cfg o.planO _).2.trans (analyze_resume_proj o.profileO s).2⟩
    · refine ⟨?_, ?_⟩
      · exact ((generate_question_proj o.questionO _).2.2.1).trans
          ((plan_interview_proj cfg o.planO _).1.trans (analyze_resume_proj o.profileO s).1)
      · exact ((generate_question_proj o.questionO _).2.1).trans
          ((plan_interview_proj cfg o.planO _).2.trans (analyze_resume_proj o.profileO s).2)

theorem processRecorded_inv (cfg : Settings) (o : Oracles) (base : InterviewState)
    (qa : QAPair) (n : Nat) (hmax : 1 ≤ cfg.MAX_QUESTIONS)
    (hbase : base.current_question_index = n)
    (hidx : n < cfg.MAX_QUESTIONS)
    (hlen : base.qa_pairs.length = n) :
    ((processRecordedAnswer cfg o { base with qa_pairs := base.qa_pairs ++ [qa] }).1.current_question_index
        < cfg.MAX_QUESTIONS ∧
     (processRecordedAnswer cfg o { base with qa_pairs := base.qa_pairs ++ [qa] }).1.qa_pairs.length
        ≤ cfg.MAX_QUESTIONS ∧
     (activeStatus (processRecordedAnswer cfg o { base with qa_pairs := base.qa_pairs ++ [qa] }).1 →
      (processRecordedAnswer cfg o { base with qa_pairs := base.qa_pairs ++ [qa] }).1.qa_pairs.length
        = (processRecordedAnswer cfg o { base with qa_pairs := base.qa_pairs ++ [qa] }).1.current_question_index)) ∧
    ((processRecordedAnswer cfg o { base with qa_pairs := base.qa_pairs ++ [qa] }).1.current_question_index
        ≠ n →
      n < cfg.MAX_QUESTIONS - 1 ∧
      (processRecordedAnswer cfg o { base with qa_pairs := base.qa_pairs ++ [qa] }).1.current_question_index
        = n + 1) := by
  subst hbase
  obtain ⟨hstat, hplen, hterm, hpidx, hact⟩ :=
    processRecordedAnswer_spec cfg o { base with qa_pairs := base.qa_pairs ++ [qa] } (by simp)
  dsimp only at hplen hpidx hact
  have hlen2 : (processRecordedAnswer cfg o { base with qa_pairs := base.qa_pairs ++ [qa] }).1.qa_pairs.length
      = base.current_question_index + 1 := by
    rw [hplen]
    show (base.qa_pairs ++ [qa]).length = _
    simp [hlen]
  refine ⟨⟨?_, ?_, ?_⟩, ?_⟩
  · cases hpidx with
    | inl he =>
      rw [he]
      exact hidx
    | inr he =>
      have h1 := he.1
      rw [he.2]
      show base.current_question_index + 1 < _
      omega
  · rw [hlen2]
    omega
  · intro ha
    obtain ⟨_, hq, he⟩ := hact ha
    rw [hlen2, he]
  · intro hne
    cases hpidx with
    | inl he => exact absurd he hne
    | inr he => exact ⟨he.1, he.2⟩

/-- C1: the session invariant.  At creation (whatever the setup oracle
outcomes) the session satisfies `SessionInv`: the question index is
strictly inside `[0, MAX_QUESTIONS)` and at most `MAX_QUESTIONS` turns
are recorded.  Every accepted answer submission preserves the
invariant, and the pipeline increments the index only when, after
evaluation, the index was still below `MAX_QUESTIONS - 1` (otherwise it
routes to report synthesis and leaves the index unchanged), so the
number of recorded turns never exceeds `MAX_QUESTIONS`. -/
theorem c1_question_index_bounded :
    (∀ (cfg : Settings) (so : SetupOracles) (resume jd : String) (ty : InterviewType)
        (df : Difficulty) (lang : Language),
      1 ≤ cfg.MAX_QUESTIONS →
      SessionInv cfg ⟨(start_interview cfg so resume jd ty df lang).1, false, "", ""⟩) ∧
    (∀ (cfg : Settings) (o : Oracles) (sd : SessionData) (a : String)
        (r : SessionData × List Effect),
      1 ≤ cfg.MAX_QUESTIONS →
      SessionInv cfg sd →
      submit_answer cfg o sd a = .ok r →
      SessionInv cfg r.1 ∧
      (r.1.state.current_question_index ≠ sd.state.current_question_index →
        sd.state.current_question_index < cfg.MAX_QUESTIONS - 1 ∧
        r.1.state.current_question_index = sd.state.current_question_index + 1)) := by
  constructor
  · intro cfg so resume jd ty df lang hmax
    obtain ⟨hidx, hqa⟩ := run_setup_proj cfg so
      { resume_text := resume, job_description := jd,
        interview_type := ty, difficulty := df, language := lang }
    refine ⟨?_, ?_, ?_⟩
    · show (run_setup cfg so _).current_question_index < _
      rw [hidx]
      exact hmax
    · show (run_setup cfg so _).qa_pairs.length ≤ _
      rw [hqa]
      exact Nat.zero_le _
    · intro _
      show (run_setup cfg so _).qa_pairs.length = (run_setup cfg so _).current_question_index
      rw [hqa, hidx]
      rfl
  · intro cfg o sd a r hmax hinv hsub
    obtain ⟨hidx, hlenmax, hlen⟩ := hinv
    unfold submit_answer at hsub
    split at hsub
    · exact absurd hsub (by simp)
    · rename_i h1
      split at hsub
      · exact absurd hsub (by simp)
      · rename_i h2
        have hact : activeStatus sd.state := ⟨h1, h2⟩
        have hleneq := hlen hact
        dsimp only at hsub
        split at hsub
        · exact absurd hsub (by simp)
        · split at hsub
          · -- answer to a pending follow-up: record the combined turn and process
            injection hsub with he
            subst he
            unfold handle_follow_up_answer
            dsimp only
            obtain ⟨hinv2, hincr⟩ := processRecorded_inv cfg o sd.state _
              sd.state.current_question_index hmax rfl hidx hleneq
            exact ⟨hinv2, hincr⟩
          · -- main answer
            injection hsub with he
            subst he
            unfold handle_main_answer
            dsimp only
            by_cases hf : (decide_follow_up cfg o.followUpD sd.state).is_follow_up = true
            · rw [if_pos hf]
              obtain ⟨hds, hdq, hdi, _⟩ := decide_follow_up_proj cfg o.followUpD sd.state
              obtain ⟨hgs, hgq, hgi⟩ := generate_follow_up_proj o.followUpQ
                (decide_follow_up cfg o.followUpD sd.state)
              refine ⟨⟨?_, ?_, ?_⟩, ?_⟩
              · show (generate_follow_up _ _).current_question_index < _
                rw [hgi, hdi]
                exact hidx
              · show (generate_follow_up _ _).qa_pairs.length ≤ _
                rw [hgq, hdq]
                exact hlenmax
              · intro _
                show (generate_follow_up _ _).qa_pairs.length
                    = (generate_follow_up _ _).current_question_index
                rw [hgq, hdq, hgi, hdi, hleneq]
              · intro hne
                exact absurd (hgi.trans hdi) hne
            · rw [if_neg hf]
              obtain ⟨hds, hdq, hdi, _⟩ := decide_follow_up_proj cfg o.followUpD sd.state
              have hlen2 : (decide_follow_up cfg o.followUpD sd.state).qa_pairs.length
                  = sd.state.current_question_index := by
                rw [hdq, hleneq]
              obtain ⟨hinv2, hincr⟩ := processRecorded_inv cfg o
                (decide_follow_up cfg o.followUpD sd.state) _
                sd.state.current_question_index hmax hdi hidx hlen2
              exact ⟨hinv2, hincr⟩

theorem c1_question_index_bounded_witness :
    (1 ≤ settings.MAX_QUESTIONS ∧
      SessionInv settings
        ⟨(start_interview settings ⟨some {}, some planW, some "Q1"⟩
            "r" "j" .behavioral .junior .english).1, false, "", ""⟩) ∧
    (SessionInv settings ⟨liveState 0 [], false, "", ""⟩ ∧
      ∃ r, submit_answer settings
          { followUpD := some { needs_follow_up := false }, evalO := .parsed 8 [] [] "",
            questionO := some "Q2" }
          ⟨liveState 0 [], false, "", ""⟩ "an answer" = .ok r ∧
        SessionInv settings r.1) := by
  constructor
  · exact ⟨by decide, c1_question_index_bounded.1 settings ⟨some {}, some planW, some "Q1"⟩
      "r" "j" .behavioral .junior .english (by decide)⟩
  · refine ⟨⟨by decide, by decide, fun _ => by decide⟩, _, rfl, ?_⟩
    exact (c1_question_index_bounded.2 settings
      { followUpD := some { needs_follow_up := false }, evalO := .parsed 8 [] [] "",
        questionO := some "Q2" }
      ⟨liveState 0 [], false, "", ""⟩ "an answer" _ (by decide)
      ⟨by decide, by decide, fun _ => by decide⟩ rfl).1

theorem countPrim_cons_prim (i : Nat) (b : Bool) (tr : List LlmEvent) :
    countPrim (.primAttempt i b :: tr) = countPrim tr + 1 := by
  simp [countPrim, List.filter]

theorem countPrim_cons_wait (t : ℚ) (tr : List LlmEvent) :
    countPrim (.wait t :: tr) = countPrim tr := by
  simp [countPrim, List.filter]

theorem countPrim_singleton (i : Nat) (b : Bool) :
    countPrim [.primAttempt i b] = 1 := by
  simp [countPrim, List.filter]

theorem countPrim_append_fb (tr : List LlmEvent) (b : Bool) :
    countPrim (tr ++ [.fbAttempt b]) = countPrim tr := by
  simp [countPrim, List.filter_append, List.filter]

theorem countFb_append_fb (tr : List LlmEvent) (b : Bool) :
    countFb (tr ++ [.fbAttempt b]) = countFb tr + 1 := by
  simp [countFb, List.filter_append, List.filter]

theorem countFb_cons_prim (i : Nat) (b : Bool) (tr : List LlmEvent) :
    countFb (.primAttempt i b :: tr) = countFb tr := by
  simp [countFb, List.filter]

theorem countFb_cons_wait (t : ℚ) (tr : List LlmEvent) :
    countFb (.wait t :: tr) = countFb tr := by
  simp [countFb, List.filter]

theorem countFb_eq_zero (tr : List LlmEvent)
    (h : ∀ b, LlmEvent.fbAttempt b ∉ tr) : countFb tr = 0 := by
  induction tr with
  | nil => rfl
  | cons ev rest ih =>
    have hrest : ∀ b, LlmEvent.fbAttempt b ∉ rest := by
      intro b hb
      exact h b (List.mem_cons_of_mem _ hb)
    cases ev with
    | primAttempt i b => rw [countFb_cons_prim]; exact ih hrest
    | wait t => rw [countFb_cons_wait]; exact ih hrest
    | fbAttempt b => exact absurd (List.mem_cons_self _ _) (h b)

theorem primaryLoopAux_no_fb (primary : Nat → Except (List Char) String) (rd : ℚ) :
    ∀ (rem att : Nat) (b : Bool),
      LlmEvent.fbAttempt b ∉ (primaryLoopAux primary rd att rem).2 := by
  intro rem
  induction rem with
  | zero =>
    intro att b
    unfold primaryLoopAux
    cases primary att with
    | ok r => simp
    | error e => simp
  | succ rem ih =>
    intro att b
    unfold primaryLoopAux
    cases primary att with
    | ok r => simp
    | error e =>
      dsimp only
      split
      · intro hmem
        simp only [List.mem_cons] at hmem
        rcases hmem with h | h | h
        · exact LlmEvent.noConfusion h
        · exact LlmEvent.noConfusion h
        · exact ih (att + 1) b h
      · simp

theorem primaryLoopAux_count (primary : Nat → Except (List Char) String) (rd : ℚ) :
    ∀ (rem att : Nat), countPrim (primaryLoopAux primary rd att rem).2 ≤ rem + 1 := by
  intro rem
  induction rem with
  | zero =>
    intro att
    unfold primaryLoopAux
    cases primary att with
    | ok r => rw [countPrim_singleton]
    | error e => rw [countPrim_singleton]
  | succ rem ih =>
    intro att
    unfold primaryLoopAux
    cases primary att with
    | ok r =>
      rw [countPrim_singleton]
      omega
    | error e =>
      dsimp only
      split
      · rw [countPrim_cons_prim, countPrim_cons_wait]
        have := ih (att + 1)
        omega
      · rw [countPrim_singleton]
        omega

theorem primaryLoopAux_wait (primary : Nat → Except (List Char) String) (rd : ℚ) :
    ∀ (rem att : Nat) (t : ℚ),
      LlmEvent.wait t ∈ (primaryLoopAux primary rd att rem).2 →
      ∃ i e, att ≤ i ∧ i < att + rem ∧ primary i = .error e ∧
        is_rate_limit e = true ∧ t = qmul rd (mkRat (i + 1) 1) := by
  intro rem
  induction rem with
  | zero =>
    intro att t hmem
    unfold primaryLoopAux at hmem
    revert hmem
    cases primary att with
    | ok r => simp
    | error e => simp
  | succ rem ih =>
    intro att t hmem
    unfold primaryLoopAux at hmem
    revert hmem
    cases hp : primary att with
    | ok r => simp
    | error e =>
      dsimp only
      split
      · rename_i hrl
        intro hmem
        simp only [List.mem_cons] at hmem
        rcases hmem with h | h | h
        · exact LlmEvent.noConfusion h
        · refine ⟨att, e, Nat.le_refl _, by omega, hp, hrl, ?_⟩
          injection h
        · obtain ⟨i, e2, hi1, hi2, hi3, hi4, hi5⟩ := ih (att + 1) t h
          exact ⟨i, e2, by omega, by omega, hi3, hi4, hi5⟩
      · simp

theorem primaryLoopAux_mem (primary : Nat → Except (List Char) String) (rd : ℚ) :
    ∀ (rem att : Nat) (j : Nat) (b : Bool),
      LlmEvent.primAttempt j b ∈ (primaryLoopAux primary rd att rem).2 →
      att ≤ j ∧ ∀ i, att ≤ i → i < j →
        ∃ e, primary i = .error e ∧ is_rate_limit e = true := by
  intro rem
  induction rem with
  | zero =>
    intro att j b hmem
    unfold primaryLoopAux at hmem
    revert hmem
    cases primary att with
    | ok r =>
      intro hmem
      simp only [List.mem_singleton] at hmem
      injection hmem with h1 h2
      subst h1
      exact ⟨Nat.le_refl _, fun i h1 h2 => absurd (Nat.lt_of_le_of_lt h1 h2) (Nat.lt_irrefl _)⟩
    | error e =>
      intro hmem
      simp only [List.mem_singleton] at hmem
      injection hmem with h1 h2
      subst h1
      exact ⟨Nat.le_refl _, fun i h1 h2 => absurd (Nat.lt_of_le_of_lt h1 h2) (Nat.lt_irrefl _)⟩
  | succ rem ih =>
    intro att j b hmem
    unfold primaryLoopAux at hmem
    revert hmem
    cases hp : primary att with
    | ok r =>
      intro hmem
      simp only [List.mem_singleton] at hmem
      injection hmem with h1 h2
      subst h1
      exact ⟨Nat.le_refl _, fun i h1 h2 => absurd (Nat.lt_of_le_of_lt h1 h2) (Nat.lt_irrefl _)⟩
    | error e =>
      dsimp only
      split
      · rename_i hrl
        intro hmem
        simp only [List.mem_cons] at hmem
        rcases hmem with h | h | h
        · injection h with h1 h2
          subst h1
          exact ⟨Nat.le_refl _, fun i hi1 hi2 => absurd (Nat.lt_of_le_of_lt hi1 hi2) (Nat.lt_irrefl _)⟩
        · exact LlmEvent.noConfusion h
        · obtain ⟨hle, hall⟩ := ih (att + 1) j b h
          refine ⟨by omega, fun i hi1 hi2 => ?_⟩
          by_cases hcase : i = att
          · subst hcase
            exact ⟨e, hp, hrl⟩
          · exact hall i (by omega) hi2
      · intro hmem
        simp only [List.mem_singleton] at hmem
        injection hmem with h1 h2
        subst h1
        exact ⟨Nat.le_refl _, fun i h1 h2 => absurd (Nat.lt_of_le_of_lt h1 h2) (Nat.lt_irrefl _)⟩

theorem primaryLoopAux_some_iff (primary : Nat → Except (List Char) String) (rd : ℚ) :
    ∀ (rem att : Nat),
      (primaryLoopAux primary rd att rem).1.isSome = true ↔
      ∃ j, LlmEvent.primAttempt j true ∈ (primaryLoopAux primary rd att rem).2 := by
  intro rem
  induction rem with
  | zero =>
    intro att
    unfold primaryLoopAux
    cases primary att with
    | ok r => simp
    | error e => simp
  | succ rem ih =>
    intro att
    unfold primaryLoopAux
    cases primary att with
    | ok r => simp
    | error e =>
      dsimp only
      split
      · constructor
        · intro h
          obtain ⟨j, hj⟩ := (ih (att + 1)).1 h
          exact ⟨j, by simp [hj]⟩
        · intro ⟨j, hj⟩
          simp only [List.mem_cons] at hj
          rcases hj with h | h | h
          · exact absurd h (fun hc => by injection hc with _ hb; exact Bool.noConfusion hb)
          · exact LlmEvent.noConfusion h
          · exact (ih (att + 1)).2 ⟨j, h⟩
      · simp

/-- C6: the gateway attempts the primary backend at most
`retry_count + 1` times; every `time.sleep` has duration
`retry_delay * (attempt + 1)` and happens only after a rate-limited
primary failure with retries left; any attempt followed by a later
attempt was a rate-limited failure (so a non-rate-limit failure aborts
the primary loop); the fallback is attempted at most once, exactly when
no primary attempt succeeded; and the terminal `RuntimeError` is raised
iff the fallback attempt failed. -/
theorem c6_gateway_retry_and_fallback (primary : Nat → Except (List Char) String)
    (fallback : Except (List Char) String) (rc : Nat) (rd : ℚ) :
    countPrim (invoke_llm primary fallback rc rd).2 ≤ rc + 1 ∧
    (∀ t, LlmEvent.wait t ∈ (invoke_llm primary fallback rc rd).2 →
      ∃ i e, i < rc ∧ primary i = .error e ∧ is_rate_limit e = true ∧
        t = qmul rd (mkRat (i + 1) 1)) ∧
    (∀ i j bi bj, LlmEvent.primAttempt i bi ∈ (invoke_llm primary fallback rc rd).2 →
      LlmEvent.primAttempt j bj ∈ (invoke_llm primary fallback rc rd).2 → i < j →
      ∃ e, primary i = .error e ∧ is_rate_limit e = true) ∧
    countFb (invoke_llm primary fallback rc rd).2 ≤ 1 ∧
    ((∃ b, LlmEvent.fbAttempt b ∈ (invoke_llm primary fallback rc rd).2) ↔
      (∀ j, LlmEvent.primAttempt j true ∉ (invoke_llm primary fallback rc rd).2)) ∧
    ((invoke_llm primary fallback rc rd).1 = .error "Both primary and fallback LLMs failed" ↔
      LlmEvent.fbAttempt false ∈ (invoke_llm primary fallback rc rd).2) := by
  have hnofb := primaryLoopAux_no_fb primary rd rc 0
  have hcount := primaryLoopAux_count primary rd rc 0
  have hwait := primaryLoopAux_wait primary rd rc 0
  have hmem := primaryLoopAux_mem primary rd rc 0
  have hsome := primaryLoopAux_some_iff primary rd rc 0
  unfold invoke_llm
  dsimp only
  cases hq : (primaryLoopAux primary rd 0 rc).1 with
  | some r0 =>
    refine ⟨hcount, ?_, ?_, ?_, ?_, ?_⟩
    · intro t ht
      obtain ⟨i, e, _, hi2, hi3, hi4, hi5⟩ := hwait t ht
      exact ⟨i, e, by omega, hi3, hi4, hi5⟩
    · intro i j bi bj hi hj hij
      obtain ⟨_, hall⟩ := hmem j bj hj
      exact hall i (Nat.zero_le _) hij
    · rw [countFb_eq_zero _ hnofb]
      omega
    · constructor
      · intro ⟨b, hb⟩
        exact absurd hb (hnofb b)
      · intro hall
        obtain ⟨j, hj⟩ := hsome.1 (by rw [hq]; rfl)
        exact absurd hj (hall j)
    · constructor
      · intro hc
        exact absurd hc (by simp)
      · intro hc
        exact absurd hc (hnofb false)
  | none =>
    cases fallback with
    | ok fr =>
      refine ⟨?_, ?_, ?_, ?_, ?_, ?_⟩
      · rw [countPrim_append_fb]
        exact hcount
      · intro t ht
        rw [List.mem_append] at ht
        rcases ht with h | h
        · obtain ⟨i, e, _, hi2, hi3, hi4, hi5⟩ := hwait t h
          exact ⟨i, e, by omega, hi3, hi4, hi5⟩
        · simp only [List.mem_singleton] at h
          exact LlmEvent.noConfusion h
      · intro i j bi bj hi hj hij
        rw [List.mem_append] at hj
        rcases hj with h | h
        · obtain ⟨_, hall⟩ := hmem j bj h
          exact hall i (Nat.zero_le _) hij
        · simp only [List.mem_singleton] at h
          exact LlmEvent.noConfusion h
      · rw [countFb_append_fb, countFb_eq_zero _ hnofb]
      · constructor
        · intro _ j hj
          rw [List.mem_append] at hj
          rcases hj with h | h
          · have : (primaryLoopAux primary rd 0 rc).1.isSome = true := hsome.2 ⟨j, h⟩
            rw [hq] at this
            exact Bool.noConfusion this
          · simp only [List.mem_singleton] at h
            exact LlmEvent.noConfusion h
        · intro _
          exact ⟨true, by rw [List.mem_append]; right; exact List.mem_singleton.mpr rfl⟩
      · constructor
        · intro hc
          exact absurd hc (by simp)
        · intro hc
          rw [List.mem_append] at hc
          rcases hc with h | h
          · exact absurd h (hnofb false)
          · simp only [List.mem_singleton] at h
            injection h with hb
            exact Bool.noConfusion hb
    | error fe =>
      refine ⟨?_, ?_, ?_, ?_, ?_, ?_⟩
      · rw [countPrim_append_fb]
        exact hcount
      · intro t ht
        rw [List.mem_append] at ht
        rcases ht with h | h
        · obtain ⟨i, e, _, hi2, hi3, hi4, hi5⟩ := hwait t h
          exact ⟨i, e, by omega, hi3, hi4, hi5⟩
        · simp only [List.mem_singleton] at h
          exact LlmEvent.noConfusion h
      · intro i j bi bj hi hj hij
        rw [List.mem_append] at hj
        rcases hj with h | h
        · obtain ⟨_, hall⟩ := hmem j bj h
          exact hall i (Nat.zero_le _) hij
        · simp only [List.mem_singleton] at h
          exact LlmEvent.noConfusion h
      · rw [countFb_append_fb, countFb_eq_zero _ hnofb]
      · constructor
        · intro _ j hj
          rw [List.mem_append] at hj
          rcases hj with h | h
          · have : (primaryLoopAux primary rd 0 rc).1.isSome = true := hsome.2 ⟨j, h⟩
            rw [hq] at this
            exact Bool.noConfusion this
          · simp only [List.mem_singleton] at h
            exact LlmEvent.noConfusion h
        · intro _
          exact ⟨false, by rw [List.mem_append]; right; exact List.mem_singleton.mpr rfl⟩
      · constructor
        · intro _
          rw [List.mem_append]
          right
          exact List.mem_singleton.mpr rfl
        · intro _
          rfl

theorem c6_gateway_retry_and_fallback_witness :
    LlmEvent.wait 3 ∈ (invoke_llm
        (fun i => if i = 0 then Except.error "429 Too Many Requests".data
                  else Except.error "boom".data)
        (Except.ok "fallback answer") 2 3).2 ∧
    (∃ (i : Nat) (e : List Char), i < 2 ∧
      ((fun i => if i = 0 then Except.error "429 Too Many Requests".data
                 else Except.error "boom".data) : Nat → Except (List Char) String) i
        = .error e ∧
      is_rate_limit e = true ∧ (3 : ℚ) = qmul 3 (mkRat (i + 1) 1)) :=
  ⟨by decide,
   (c6_gateway_retry_and_fallback
      (fun i => if i = 0 then Except.error "429 Too Many Requests".data
                else Except.error "boom".data)
      (Except.ok "fallback answer") 2 3).2.1 3 (by decide)⟩

theorem c7_extract_json_witness :
    extract_json "\x7b\"a\": 1\x7d".data = .ok (Json.obj [("a".data, Json.num 1)]) ∧
    "The model returned no structured payload.".data.length ≤ 200 :=
  ⟨c7_extract_json.1 "\x7b\"a\": 1\x7d".data (Json.obj [("a".data, Json.num 1)]) rfl,
   c7_extract_json.2.2.1 "The model returned no structured payload.".data
     "The model returned no structured payload.".data rfl⟩

end InterviewAI
